import Mathlib

/-!
Shallow embedding of the BFC-Multitool `statter` crate (tournament resolution,
season rankings and lifetime team statistics), translated from
`src/crates/statter/src/{fixture,team,rankings,tournament}.rs`.

Modelling conventions:
* `u8`/`u32`/`usize` values are modelled as `Nat`; arithmetic that can wrap in
  the source is performed modulo `2^8`, `2^32` or `2^64` (release-mode wrapping
  semantics).
* Fallible Rust code (`Result`) becomes `Except Err`; panicking operations
  (`unwrap`, `expect`, slice indexing, division by zero) become the error
  `Err.panicked`.
* `HashMap<TeamName, V>` is modelled as an association list
  `List (TeamName × V)` in insertion order; `HashSet<GroupID>` as a
  deduplicated `List GroupID` in first-seen order.  (Rust's iteration order is
  unspecified; the claims proved below do not depend on it.)
* `sort_unstable_by` with a side-effecting comparator is modelled by an
  insertion sort threading the comparator's flag state; every adjacent pair of
  the sorted output is compared at least once during such a sort.
-/

namespace BFC

/-- Wrapping `u8` addition. -/
def u8add (a b : Nat) : Nat := (a + b) % 256

/-- Wrapping `u8` subtraction. -/
def u8sub (a b : Nat) : Nat := ((a % 256) + 256 - (b % 256)) % 256

/-- Wrapping `u32` addition. -/
def u32add (a b : Nat) : Nat := (a + b) % 4294967296

/-- The `u8::abs_diff` operation. -/
def absDiff (a b : Nat) : Nat := max a b - min a b

/-- Team identifiers: the closed enumeration from `team.rs`. -/
inductive TeamName where
  | Unknown | AlphaSpaceBros | Autoism | BigFunky | BoneZone | CartoonsFC
  | Disney | Gambit | HmXGaming | Moai | Nintendont | TheDump | Vidya
  deriving DecidableEq, Repr, Fintype

/-- Group identifiers from `tournament.rs`. -/
inductive GroupID where
  | A | B | C | D
  deriving DecidableEq, Repr

/-- Structured counterpart of the various `anyhow!`/`FixtureError` failures
(and panics) of the statter crate. -/
inductive Err where
  | missingPenalty1 (team1 team2 : TeamName) (pen : Nat)
  | missingPenalty2 (team1 team2 : TeamName) (pen : Nat)
  | invalidPenalties (team1 team2 : TeamName)
  | panicked
  | matchupNameMismatch
  | groupsMissing (name : String)
  | missingGroup (name : String) (team1 team2 : TeamName)
  | cannotOrder (name : String) (team1 team2 : TeamName)
  | noWildcardCandidate
  | inGroups (name : String) (e : Err)
  | inWinners (name : String) (e : Err)
  | inLosers (name : String) (e : Err)
  | inGrandFinal (name : String) (e : Err)
  | playoffDraw (name : String) (team1 team2 : TeamName)
  | expectedPlayoffTeamsFromGroups (name : String) (expected found : Nat)
  | expectedPlayoffTeams (name : String) (expected found : Nat)
  | gfCount (name : String) (found : Nat)
  | gfWonFromLosers (name : String) (w : TeamName)
  | gfResetUnneeded (name : String) (w : TeamName)
  | gfDrawn (name : String)
  | losersFixtureCount (name : String) (expected found : Nat)
  | winnersFixtureCount (name : String) (expected found : Nat)
  | sortPrevFixture
  | missingGroupCompare (name : String) (team1 team2 : TeamName)
  | noQualifyingTeams
  | cantRank (team1 team2 : TeamName) (name : String)
  deriving DecidableEq, Repr

deriving instance DecidableEq for Except

/-- One match result (`fixture.rs`). -/
structure Fixture where
  team1 : TeamName
  team2 : TeamName
  score1 : Nat
  score2 : Nat
  pen1 : Option Nat
  pen2 : Option Nat
  group : Option GroupID
  deriving DecidableEq, Repr

/-- Embedding of `Fixture::winner`. -/
def Fixture.winner (f : Fixture) : Except Err (Option TeamName) :=
  match f.pen1, f.pen2 with
  | none, some pen_goals => .error (.missingPenalty1 f.team1 f.team2 pen_goals)
  | some pen_goals, none => .error (.missingPenalty2 f.team1 f.team2 pen_goals)
  | some p1, some p2 =>
      if p1 = p2 then .error (.invalidPenalties f.team1 f.team2)
      else if p1 > p2 then .ok (some f.team1) else .ok (some f.team2)
  | none, none =>
      if f.score1 > f.score2 then .ok (some f.team1)
      else if f.score2 > f.score1 then .ok (some f.team2)
      else .ok none

/-- Embedding of `Fixture::loser`. -/
def Fixture.loser (f : Fixture) : Except Err (Option TeamName) :=
  match f.winner with
  | .ok (some t) =>
      if t = f.team1 then .ok (some f.team2)
      else if t = f.team2 then .ok (some f.team1)
      else .ok (some t)
  | r => r

/-- A fixture together with the tournament it was played in (`fixture.rs`). -/
structure GreatestFixture where
  fixture : Fixture
  tournament_name : String
  deriving DecidableEq, Repr

/-- Embedding of `GreatestFixture::from`. -/
def GreatestFixture.from (f : Fixture) (tournament_name : String) : GreatestFixture :=
  { fixture := f, tournament_name := tournament_name }

/-- Per-opponent accumulated history (`team.rs`). -/
structure MatchupHistory where
  opponent_name : TeamName
  goals_against : Nat
  goals_for : Nat
  penalties_played : Nat
  penalties_goals_against : Nat
  penalties_goals_for : Nat
  wins : Nat
  draws : Nat
  losses : Nat
  deriving DecidableEq, Repr

/-- Embedding of `MatchupHistory::from`. -/
def MatchupHistory.from (opponent_name : TeamName)
    (goals_against goals_for penalties_played penalties_goals_against
     penalties_goals_for wins draws losses : Nat) : MatchupHistory :=
  { opponent_name := opponent_name, goals_against := goals_against,
    goals_for := goals_for, penalties_played := penalties_played,
    penalties_goals_against := penalties_goals_against,
    penalties_goals_for := penalties_goals_for,
    wins := wins, draws := draws, losses := losses }

/-- Embedding of `MatchupHistory::add`. -/
def MatchupHistory.add (m other : MatchupHistory) : Except Err MatchupHistory :=
  if m.opponent_name ≠ other.opponent_name then .error .matchupNameMismatch
  else .ok
    { m with
      goals_against := u32add m.goals_against other.goals_against
      goals_for := u32add m.goals_for other.goals_for
      penalties_played := u32add m.penalties_played other.penalties_played
      penalties_goals_against := u32add m.penalties_goals_against other.penalties_goals_against
      penalties_goals_for := u32add m.penalties_goals_for other.penalties_goals_for
      wins := u32add m.wins other.wins
      draws := u32add m.draws other.draws
      losses := u32add m.losses other.losses }

/-- Tournament participation entry (`tournament.rs`). -/
structure Participation where
  tournament_name : String
  date : Nat
  placement : Nat
  deriving DecidableEq, Repr

/-- Lifetime team record (`team.rs`). -/
structure Team where
  name : TeamName
  goals_against : Nat
  goals_for : Nat
  penalties_played : Nat
  penalties_goals_against : Nat
  penalties_goals_for : Nat
  wins : Nat
  draws : Nat
  losses : Nat
  greatest_win : Option GreatestFixture
  greatest_loss : Option GreatestFixture
  matchups : Option (List MatchupHistory)
  participations : Option (List Participation)
  head_to_head : Option Nat
  deriving DecidableEq, Repr

/-- Embedding of `Team::from`. -/
def Team.from (name : TeamName) : Team :=
  { name := name, goals_against := 0, goals_for := 0, penalties_played := 0,
    penalties_goals_against := 0, penalties_goals_for := 0,
    wins := 0, draws := 0, losses := 0,
    greatest_win := none, greatest_loss := none,
    matchups := none, participations := none, head_to_head := none }

/-- Record the given fixture as greatest win (when `win`) or greatest loss. -/
def Team.setGreatest (tm : Team) (win : Bool) (g : GreatestFixture) : Team :=
  if win then { tm with greatest_win := some g } else { tm with greatest_loss := some g }

/-- The comparison part of `Team::try_add_greatest`: given that the incumbent
check is reached, decide whether the fixture replaces the recorded greatest. -/
def Team.try_add_greatest_core (tm : Team) (g_fixture : GreatestFixture) (win : Bool) :
    Team × Bool :=
  match (if win then tm.greatest_win else tm.greatest_loss) with
  | none => (tm.setGreatest win g_fixture, true)
  | some greatest =>
    let greatest_score_diff := absDiff greatest.fixture.score1 greatest.fixture.score2
    let fixture_score_diff := absDiff g_fixture.fixture.score1 g_fixture.fixture.score2
    let greatest_total_goals := u8add greatest.fixture.score1 greatest.fixture.score2
    let fixture_total_goals := u8add g_fixture.fixture.score1 g_fixture.fixture.score2
    let is_greatest :=
      if fixture_score_diff > greatest_score_diff ∨
          (fixture_score_diff = greatest_score_diff ∧
            fixture_total_goals > greatest_total_goals) then
        true
      else
        match greatest.fixture.pen1, greatest.fixture.pen2,
            g_fixture.fixture.pen1, g_fixture.fixture.pen2 with
        | some gp1, some gp2, some fp1, some fp2 =>
          let greatest_pen_diff := absDiff gp1 gp2
          let fixture_pen_diff := absDiff fp1 fp2
          let greatest_pen_total := u8add gp1 gp2
          let fixture_pen_total := u8add fp1 fp2
          if fixture_pen_diff > greatest_pen_diff ∨
              (fixture_pen_diff = greatest_pen_diff ∧
                fixture_pen_total > greatest_pen_total) then
            true
          else false
        | _, _, _, _ => false
    if is_greatest then (tm.setGreatest win g_fixture, true) else (tm, false)

/-- The replacement condition computed by `Team::try_add_greatest` once the
incumbent comparison is reached, as a proposition: strictly greater absolute
goal difference, or equal difference with strictly more total goals, or —
otherwise — complete penalty data on both fixtures with strictly greater
penalty difference, or equal penalty difference and strictly more penalty
goals in total. -/
def beats_chain (gnew gold : GreatestFixture) : Prop :=
  absDiff gnew.fixture.score1 gnew.fixture.score2
      > absDiff gold.fixture.score1 gold.fixture.score2
  ∨ (absDiff gnew.fixture.score1 gnew.fixture.score2
        = absDiff gold.fixture.score1 gold.fixture.score2
      ∧ u8add gnew.fixture.score1 gnew.fixture.score2
          > u8add gold.fixture.score1 gold.fixture.score2)
  ∨ (∃ gp1 gp2 fp1 fp2,
      gold.fixture.pen1 = some gp1 ∧ gold.fixture.pen2 = some gp2
      ∧ gnew.fixture.pen1 = some fp1 ∧ gnew.fixture.pen2 = some fp2
      ∧ (absDiff fp1 fp2 > absDiff gp1 gp2
        ∨ (absDiff fp1 fp2 = absDiff gp1 gp2 ∧ u8add fp1 fp2 > u8add gp1 gp2)))

/-- Embedding of `Team::try_add_greatest`. -/
def Team.try_add_greatest (tm : Team) (g_fixture : GreatestFixture) (win : Bool) :
    Except Err (Team × Bool) :=
  if g_fixture.fixture.team1 ≠ tm.name ∧ g_fixture.fixture.team2 ≠ tm.name then
    .ok (tm, false)
  else
    match g_fixture.fixture.winner with
    | .error e => .error e
    | .ok (some winner) =>
        if (win = true ∧ winner ≠ tm.name) ∨ (win = false ∧ winner = tm.name) then
          .ok (tm, false)
        else .ok (tm.try_add_greatest_core g_fixture win)
    | .ok none => .ok (tm.try_add_greatest_core g_fixture win)

/-- Embedding of `Team::try_add_greatest_loss`. -/
def Team.try_add_greatest_loss (tm : Team) (other : GreatestFixture) :
    Except Err (Team × Bool) :=
  tm.try_add_greatest other false

/-- Embedding of `Team::try_add_greatest_win`. -/
def Team.try_add_greatest_win (tm : Team) (other : GreatestFixture) :
    Except Err (Team × Bool) :=
  tm.try_add_greatest other true

/-- Insert a matchup into a matchup list: merge into the first entry with the
same opponent, or push it at the end (the shared pattern of `Team::add` and
`TournamentPlacements::update_team`). -/
def mergeMatchupInto : List MatchupHistory → MatchupHistory → Except Err (List MatchupHistory)
  | [], m => .ok [m]
  | x :: xs, m =>
      if x.opponent_name = m.opponent_name then do
        let x' ← x.add m
        .ok (x' :: xs)
      else do
        let r ← mergeMatchupInto xs m
        .ok (x :: r)

/-- The greatest-win/loss merging step of `Team::add`: fold the other record's
stored greatest fixture (when present) through `try_add_greatest`. -/
def Team.addGreatestFrom (tm : Team) (og : Option GreatestFixture) (win : Bool) :
    Except Err Team :=
  match og with
  | some g => do
      let r ← tm.try_add_greatest g win
      pure r.1
  | none => pure tm

/-- The matchup-history merging step of `Team::add`. -/
def Team.addMatchupsFrom (tm : Team) (om : Option (List MatchupHistory)) :
    Except Err Team :=
  match tm.matchups, om with
  | none, omm => pure { tm with matchups := omm }
  | some ms, some oms => do
      let ms' ← oms.foldlM mergeMatchupInto ms
      pure { tm with matchups := some ms' }
  | some ms, none => pure { tm with matchups := some ms }

/-- The participation-appending step of `Team::add`. -/
def Team.addParticipationsFrom (tm : Team) (op : Option (List Participation)) : Team :=
  match op with
  | some ops => { tm with participations := some ((tm.participations.getD []) ++ ops) }
  | none => tm

/-- Embedding of `Team::add` (merging a per-tournament record into the
lifetime record): the `assert_eq!` on names, the numeric accumulation, the
greatest-loss then greatest-win merge, the matchup merge and the
participation append, in source order. -/
def Team.add (tm other : Team) : Except Err Team := do
  if tm.name ≠ other.name then .error .panicked
  else
    let t1 : Team :=
      { tm with
        goals_against := u32add tm.goals_against other.goals_against
        goals_for := u32add tm.goals_for other.goals_for
        penalties_played := u32add tm.penalties_played other.penalties_played
        penalties_goals_against := u32add tm.penalties_goals_against other.penalties_goals_against
        penalties_goals_for := u32add tm.penalties_goals_for other.penalties_goals_for
        wins := u32add tm.wins other.wins
        draws := u32add tm.draws other.draws
        losses := u32add tm.losses other.losses }
    let t2 ← t1.addGreatestFrom other.greatest_loss false
    let t3 ← t2.addGreatestFrom other.greatest_win true
    let t4 ← t3.addMatchupsFrom other.matchups
    pure (t4.addParticipationsFrom other.participations)

/-- Per-tournament outcome of one team (`team.rs`, `TeamPlacement`), including
the optional head-to-head decider value filled in by `PlayoffStage::run`. -/
structure TeamPlacement where
  team : Team
  placement : Option Nat
  head_to_head : Option Nat
  deriving DecidableEq, Repr

/-- Embedding of `TeamPlacement::from`. -/
def TeamPlacement.from (placement : Option Nat) (team : Team) : TeamPlacement :=
  { team := team, placement := placement, head_to_head := none }

end BFC

namespace BFC

/-- A team's entry in a season ranking (`rankings.rs`). -/
structure RankedTeam where
  name : TeamName
  ranking_points : List Nat
  ranks : List Nat
  deriving DecidableEq, Repr

/-- A fully resolved tournament (`tournament.rs`, `TournamentResult`). -/
structure TournamentResult where
  tournament_name : String
  season_num : Nat
  date : Nat
  team_placements : List TeamPlacement
  deriving DecidableEq, Repr

/-- The season-points table `TournamentResult::POINTS`. -/
def POINTS : List Nat :=
  [1500, 1100, 900, 750, 600, 500, 400, 300, 200, 100, 50, 25, 12, 6, 3, 1, 0]

/-- The constant `TournamentResult::MAX_POINT_IDX`. -/
def MAX_POINT_IDX : Nat := 16

/-- Index into `POINTS` used by `get_teams_ranked`:
`min(MAX_POINT_IDX, placement as usize - 1)` with wrapping `usize`
subtraction. -/
def pointsIndex (placement : Nat) : Nat :=
  min MAX_POINT_IDX ((placement + (18446744073709551616 - 1)) % 18446744073709551616)

/-- Embedding of `TournamentResult::get_teams_ranked`; `none` models the
`unwrap` panic on an unresolved placement. -/
def TournamentResult.get_teams_ranked (tr : TournamentResult) : Option (List RankedTeam) :=
  tr.team_placements.mapM (fun tp =>
    tp.placement.map (fun p =>
      { name := tp.team.name
        ranking_points := [POINTS.getD (pointsIndex p) 0]
        ranks := ([] : List Nat) }))

/-- Rankings for one season (`rankings.rs`, `SeasonRankings`). -/
structure SeasonRankings where
  date : Nat
  season_num : Nat
  rankings : List RankedTeam
  tournaments : List String
  deriving DecidableEq, Repr

/-- All seasons (`rankings.rs`, `Seasons`). -/
structure Seasons where
  seasons : List SeasonRankings
  deriving DecidableEq, Repr

/-- Comparison of `Option<&u32>` values (`None` sorts below `Some`). -/
def optCmpNat : Option Nat → Option Nat → Ordering
  | none, none => .eq
  | none, some _ => .lt
  | some _, none => .gt
  | some a, some b => compare a b

/-- Plain insertion step for `sort_unstable_by`-style comparators:
`x` is placed before the first element `y` with `f x y = .lt`. -/
def insCmp (f : α → α → Ordering) (x : α) : List α → List α
  | [] => [x]
  | y :: ys => if f x y = .lt then x :: y :: ys else y :: insCmp f x ys

/-- Plain insertion sort by a three-way comparator. -/
def sortByCmp (f : α → α → Ordering) (l : List α) : List α :=
  l.foldl (fun acc x => insCmp f x acc) []

/-- The in-place update of one team's entry in `Seasons::push`: add the new
points to the first entry with this name, or append a zero-padded new entry
(`n` entries of padding). `none` models the `unwrap` panic on an empty
points list. -/
def updateRankings : List RankedTeam → RankedTeam → Nat → Option (List RankedTeam)
  | [], new_r, n =>
      some [{ new_r with
              ranking_points := List.replicate n 0 ++ new_r.ranking_points
              ranks := List.replicate n 0 ++ new_r.ranks }]
  | old :: rest, new_r, n =>
      if old.name = new_r.name then do
        let lastOld ← old.ranking_points.getLast?
        let lastNew ← new_r.ranking_points.getLast?
        some ({ old with ranking_points := old.ranking_points ++ [u32add lastOld lastNew] } :: rest)
      else do
        let r ← updateRankings rest new_r n
        some (old :: r)

/-- The body of `Seasons::push` applied to the season entry selected for the
given tournament result. -/
def pushIntoSeason (sr : SeasonRankings) (tr : TournamentResult) : Option SeasonRankings := do
  let sr1 :=
    if tr.tournament_name ∈ sr.tournaments then sr
    else { sr with tournaments := sr.tournaments ++ [tr.tournament_name] }
  let new_teams ← tr.get_teams_ranked
  let n := sr1.tournaments.length - 1
  let rankings1 ← new_teams.foldlM (fun acc new_r => updateRankings acc new_r n) sr1.rankings
  let rankings2 :=
    sortByCmp (fun a b => optCmpNat b.ranking_points.getLast? a.ranking_points.getLast?) rankings1
  let rankings3 := rankings2.enum.map
    (fun p => { p.2 with ranks := p.2.ranks ++ [((p.1 % 256) + 1) % 256] })
  some { sr1 with rankings := rankings3 }

/-- Find (or create at the end) the season entry with the result's season
number and push the result into it (`Seasons::push`). -/
def pushIntoSeasons : List SeasonRankings → TournamentResult → Option (List SeasonRankings)
  | [], tr => do
      let sr0 : SeasonRankings :=
        { date := tr.date, season_num := tr.season_num, rankings := [], tournaments := [] }
      let sr' ← pushIntoSeason sr0 tr
      some [sr']
  | sr :: rest, tr =>
      if sr.season_num = tr.season_num then do
        let sr' ← pushIntoSeason sr tr
        some (sr' :: rest)
      else do
        let r ← pushIntoSeasons rest tr
        some (sr :: r)

/-- Embedding of `Seasons::push`. -/
def Seasons.push (s : Seasons) (tr : TournamentResult) : Option Seasons := do
  let l ← pushIntoSeasons s.seasons tr
  some { seasons := l }

/-- Embedding of `Seasons::from`. -/
def Seasons.fromResults (trs : List TournamentResult) : Option Seasons :=
  trs.foldlM Seasons.push { seasons := [] }

end BFC

namespace BFC

/-- Per-group standing of one team (`tournament.rs`, `GroupTeam`). -/
structure GroupTeam where
  group : GroupID
  team : TeamName
  points : Nat
  goals_for : Nat
  goals_against : Nat
  head_to_head : Option Nat
  deriving DecidableEq, Repr

/-- Embedding of `GroupTeam::points_from_fixture_result`. -/
def GroupTeam.points_from_fixture_result (goals_for goals_against : Nat) : Nat :=
  if goals_for > goals_against then 3
  else if goals_for = goals_against then 1
  else 0

/-- Embedding of `GroupTeam::from_fixture_result`. -/
def GroupTeam.from_fixture_result (group : GroupID) (team : TeamName)
    (goals_for goals_against : Nat) : GroupTeam :=
  { group := group, team := team,
    points := GroupTeam.points_from_fixture_result goals_for goals_against,
    goals_for := goals_for, goals_against := goals_against, head_to_head := none }

/-- Embedding of `GroupTeam::add_from_fixture_result` (wrapping `u8` sums). -/
def GroupTeam.add_from_fixture_result (gt : GroupTeam) (goals_for goals_against : Nat) :
    GroupTeam :=
  { gt with
    points := u8add gt.points (GroupTeam.points_from_fixture_result goals_for goals_against)
    goals_for := u8add gt.goals_for goals_for
    goals_against := u8add gt.goals_against goals_against }

/-- Goal difference of a group standing (`as i16` in the source). -/
def GroupTeam.gd (gt : GroupTeam) : Int := (gt.goals_for : Int) - (gt.goals_against : Int)

/-- The head-to-head decider comparison used as final tie-break: compare only
when both values are present, otherwise `Equal`. -/
def optCmpH2H : Option Nat → Option Nat → Ordering
  | some a, some b => compare a b
  | _, _ => .eq

/-- Embedding of `Ord for GroupTeam` (`tournament.rs` lines 122-141). -/
def GroupTeam.cmp (a b : GroupTeam) : Ordering :=
  (((compare a.points b.points).then
    (compare a.gd b.gd)).then
    (compare a.goals_for b.goals_for)).then
    (optCmpH2H a.head_to_head b.head_to_head)

/-- The comparator closure of `GroupTeams::sort_teams`: `sort_unstable_by`
receives `(b, a)` and returns `a.cmp(&b)` (descending order), recording the
pair `(a.team, b.team)` whenever it returns `Equal`. -/
def groupSortCmp (u v : GroupTeam) : Ordering × Option (TeamName × TeamName) :=
  let order := GroupTeam.cmp v u
  (order, if order = .eq then some (v.team, u.team) else none)

/-- Flag combination that keeps the most recent flag (the source overwrites
`failed_team1`/`failed_team2` on every `Equal` comparison). -/
def combLast {ε : Type} (e w : Option ε) : Option ε :=
  match w with
  | some x => some x
  | none => e

/-- Flag combination that keeps the first flag (the source only records an
error `if sort_error.is_ok()`). -/
def combFirst {ε : Type} (e w : Option ε) : Option ε :=
  match e with
  | some x => some x
  | none => w

/-- One insertion step of the flag-threading insertion sort modelling
`sort_unstable_by` with a side-effecting comparator: `x` is placed before the
first element `y` with `(f x y).1 = .lt`; every comparison's flag is combined
into the running state by `comb`. -/
def insFlag (f : α → α → Ordering × Option ε) (comb : Option ε → Option ε → Option ε)
    (x : α) : List α → Option ε → List α × Option ε
  | [], e => ([x], e)
  | y :: ys, e =>
      let p := f x y
      let e1 := comb e p.2
      if p.1 = .lt then (x :: y :: ys, e1)
      else
        let r := insFlag f comb x ys e1
        (y :: r.1, r.2)

/-- Tail of the flag-threading insertion sort. -/
def sortFlagAux (f : α → α → Ordering × Option ε) (comb : Option ε → Option ε → Option ε) :
    List α → List α → Option ε → List α × Option ε
  | [], acc, e => (acc, e)
  | x :: xs, acc, e =>
      let r := insFlag f comb x acc e
      sortFlagAux f comb xs r.1 r.2

/-- The flag-threading insertion sort. -/
def sortFlag (f : α → α → Ordering × Option ε) (comb : Option ε → Option ε → Option ε)
    (l : List α) : List α × Option ε :=
  sortFlagAux f comb l [] none

/-- Embedding of `GroupTeams::sort_teams`: sort descending by `GroupTeam::cmp`
and fail, naming the recorded pair, if any compared pair was `Equal`. -/
def sort_teams (tournament_name : String) (l : List GroupTeam) :
    Except Err (List GroupTeam) :=
  match sortFlag groupSortCmp combLast l with
  | (r, none) => .ok r
  | (_, some p) => .error (.cannotOrder tournament_name p.1 p.2)

/-- Association-list lookup (model of `HashMap::get`). -/
def alGet (k : TeamName) : List (TeamName × β) → Option β
  | [] => none
  | kv :: rest => if kv.1 = k then some kv.2 else alGet k rest

/-- Association-list in-place modification of an existing key (model of
`HashMap::entry(..).and_modify(..)` without insertion). -/
def alModify (k : TeamName) (f : β → β) : List (TeamName × β) → List (TeamName × β)
  | [] => []
  | kv :: rest => if kv.1 = k then (kv.1, f kv.2) :: rest else kv :: alModify k f rest

/-- Model of `HashMap::entry(..).and_modify(f).or_insert(dflt)`. -/
def alEntryModOrInsert (k : TeamName) (f : β → β) (dflt : β)
    (m : List (TeamName × β)) : List (TeamName × β) :=
  if (alGet k m).isSome then alModify k f m else m ++ [(k, dflt)]

/-- Model of `HashMap::entry(..).or_insert(dflt)` followed by a fallible
mutation of the entry. -/
def alUpdateEntry (k : TeamName) (dflt : β) (f : β → Except Err β)
    (m : List (TeamName × β)) : Except Err (List (TeamName × β)) :=
  let m1 := if (alGet k m).isSome then m else m ++ [(k, dflt)]
  match alGet k m1 with
  | none => .error .panicked
  | some v => do
      let v' ← f v
      .ok (alModify k (fun _ => v') m1)

/-- Values of an association list, in insertion order (model of
`HashMap::values`). -/
def alValues (m : List (TeamName × β)) : List β := m.map Prod.snd

end BFC

namespace BFC

/-- The per-tournament placement table (`TournamentPlacements`), modelled as
an association list over the closed team enumeration. -/
abbrev TournamentPlacements := List (TeamName × TeamPlacement)

/-- Embedding of `TournamentPlacements::set_placement`
(`entry(..).and_modify(..)`: a no-op for an absent team). -/
def TournamentPlacements.set_placement (m : TournamentPlacements) (team : TeamName)
    (placement : Nat) : TournamentPlacements :=
  alModify team (fun tp => { tp with placement := some placement }) m

/-- Embedding of `TournamentPlacements::update_team`: fold one side of a
fixture into that team's placement entry. -/
def TournamentPlacements.update_team (m : TournamentPlacements) (fixture : Fixture)
    (is_team1 : Bool) (is_groups : Bool) (tournament_name : String) :
    Except Err TournamentPlacements :=
  let team_name := if is_team1 then fixture.team1 else fixture.team2
  let opponent_name := if is_team1 then fixture.team2 else fixture.team1
  let goals_for := if is_team1 then fixture.score1 else fixture.score2
  let goals_against := if is_team1 then fixture.score2 else fixture.score1
  let pen_goals_for := if is_team1 then fixture.pen1 else fixture.pen2
  let pen_goals_against := if is_team1 then fixture.pen2 else fixture.pen1
  alUpdateEntry team_name (TeamPlacement.from none (Team.from team_name))
    (fun tp0 => do
      let tp1 :=
        { tp0 with team :=
          { tp0.team with
            goals_for := u32add tp0.team.goals_for goals_for
            goals_against := u32add tp0.team.goals_against goals_against } }
      let (penalties_played, penalties_goals_against, penalties_goals_for, tp2) :=
        match pen_goals_for, pen_goals_against with
        | some pgf, some pga =>
            (1, pga, pgf,
              { tp1 with team :=
                { tp1.team with
                  penalties_goals_for := u32add tp1.team.penalties_goals_for pgf
                  penalties_goals_against := u32add tp1.team.penalties_goals_against pga
                  penalties_played := u32add tp1.team.penalties_played 1 } })
        | _, _ => (0, 0, 0, tp1)
      let winner ← fixture.winner
      let (wins, draws, losses, tp3) ←
        match winner with
        | some t =>
            if t = team_name then
              .ok (1, 0, 0, { tp2 with team := { tp2.team with wins := u32add tp2.team.wins 1 } })
            else
              .ok (0, 0, 1, { tp2 with team := { tp2.team with losses := u32add tp2.team.losses 1 } })
        | none =>
            if ¬is_groups then
              .error (.playoffDraw tournament_name team_name opponent_name)
            else
              .ok (0, 1, 0, { tp2 with team := { tp2.team with draws := u32add tp2.team.draws 1 } })
      let maybe_greatest := GreatestFixture.from fixture tournament_name
      let r1 ← tp3.team.try_add_greatest_win maybe_greatest
      let r2 ← r1.1.try_add_greatest_loss maybe_greatest
      let this_matchup := MatchupHistory.from opponent_name goals_against goals_for
        penalties_played penalties_goals_against penalties_goals_for wins draws losses
      let matchups' ←
        match r2.1.matchups with
        | some ms => do
            let r ← mergeMatchupInto ms this_matchup
            pure (some r)
        | none => pure (some [this_matchup])
      .ok { tp3 with team := { r2.1 with matchups := matchups' } })
    m

/-- Embedding of `TournamentPlacements::update_teams`. -/
def TournamentPlacements.update_teams (m : TournamentPlacements) (fixture : Fixture)
    (is_groups : Bool) (tournament_name : String) : Except Err TournamentPlacements := do
  let m1 ← m.update_team fixture true is_groups tournament_name
  m1.update_team fixture false is_groups tournament_name

/-- The three fixture lists of a tournament definition (`Brackets`). -/
structure Brackets where
  winners : List Fixture
  losers : Option (List Fixture)
  groups : Option (List Fixture)
  deriving DecidableEq, Repr

/-- An externally supplied head-to-head decider value (`HeadToHead`). -/
structure HeadToHead where
  team : TeamName
  decider_points : Nat
  deriving DecidableEq, Repr

/-- A tournament definition (`Tournament`). -/
structure Tournament where
  tournament_name : String
  season_num : Nat
  date : Nat
  has_losers : Bool
  playoff_teams : Nat
  brackets : Brackets
  grand_final : Option (List Fixture)
  head_to_head : Option (List HeadToHead)
  deriving DecidableEq, Repr

/-- One iteration of the fixture loop in `GroupStage::run`: update placements,
collect the group id, and accumulate both teams' group standings. -/
def groupFixtureStep (name : String)
    (st : TournamentPlacements × List GroupID × List (TeamName × GroupTeam))
    (fixture : Fixture) :
    Except Err (TournamentPlacements × List GroupID × List (TeamName × GroupTeam)) := do
  let (pl, groups_seen, team_scores) := st
  let pl' ← match pl.update_teams fixture true name with
    | .ok v => .ok v
    | .error e => .error (.inGroups name e)
  let group ← match fixture.group with
    | some g => .ok g
    | none => .error (.missingGroup name fixture.team1 fixture.team2)
  let gs' := if group ∈ groups_seen then groups_seen else groups_seen ++ [group]
  let ts1 := alEntryModOrInsert fixture.team1
    (fun gt => gt.add_from_fixture_result fixture.score1 fixture.score2)
    (GroupTeam.from_fixture_result group fixture.team1 fixture.score1 fixture.score2)
    team_scores
  let ts2 := alEntryModOrInsert fixture.team2
    (fun gt => gt.add_from_fixture_result fixture.score2 fixture.score1)
    (GroupTeam.from_fixture_result group fixture.team2 fixture.score2 fixture.score1)
    ts1
  .ok (pl', gs', ts2)

/-- Fill in head-to-head decider values on the group standings
(`expect` panics when the decider names an unknown team). -/
def fillH2HScores (h2h : List HeadToHead) (ts : List (TeamName × GroupTeam)) :
    Except Err (List (TeamName × GroupTeam)) :=
  h2h.foldlM (fun acc d =>
    match alGet d.team acc with
    | none => .error .panicked
    | some _ =>
        .ok (alModify d.team (fun gt => { gt with head_to_head := some d.decider_points }) acc)) ts

/-- One iteration of the per-group qualification loop of `GroupStage::run`:
sort the group, keep the top `q` as qualifiers and the best non-qualified
team as the group's wildcard candidate. -/
def qualifyStep (name : String) (q : Nat) (team_scores : List (TeamName × GroupTeam))
    (st : List GroupTeam × List GroupTeam) (group : GroupID) :
    Except Err (List GroupTeam × List GroupTeam) := do
  let (wildcard_candidates, qualifying_teams) := st
  let group_teams0 := (alValues team_scores).filter (fun gt => decide (gt.group = group))
  let sorted ← sort_teams name group_teams0
  if q > sorted.length then .error .panicked
  else
    let kept := sorted.take q
    let not_qualified := sorted.drop q
    match not_qualified.head? with
    | none => .error .noWildcardCandidate
    | some cand => .ok (wildcard_candidates ++ [cand], qualifying_teams ++ kept)

/-- Assign placements to the eliminated teams, lowest-ranked first, counting
down from the group-stage team count. -/
def setEliminatedPlacements (pl : TournamentPlacements) (team_count : Nat)
    (eliminated : List GroupTeam) : TournamentPlacements :=
  (eliminated.reverse.enum).foldl
    (fun acc p => acc.set_placement p.2.team ((team_count - p.1) % 256)) pl

/-- The qualification tail of `GroupStage::run`, from the `team_count`
computation onward: per-group automatic qualifiers, wildcard candidates,
wildcards, and placements for the eliminated teams (`groups_seen.len()` is
never 0 here in the source; the guard models the division by zero). -/
def groupQualification (name : String) (playoff_teams : Nat) (pl : TournamentPlacements)
    (groups_seen : List GroupID) (team_scores : List (TeamName × GroupTeam)) :
    Except Err (TournamentPlacements × List GroupTeam) := do
  let team_count := team_scores.length
  if groups_seen.length = 0 then .error .panicked
  else
    let qualifying_teams_per_group := playoff_teams / groups_seen.length
    let wildcards_count := playoff_teams - qualifying_teams_per_group * groups_seen.length
    let wq ← groups_seen.foldlM (qualifyStep name qualifying_teams_per_group team_scores)
      (([] : List GroupTeam), ([] : List GroupTeam))
    let sorted_cands ← sort_teams name wq.1
    let wildcards := sorted_cands.take wildcards_count
    let qualifying := wq.2 ++ wildcards
    let eliminated0 := (alValues team_scores).filter (fun gt => decide (gt ∈ qualifying) = false)
    let eliminated ← sort_teams name eliminated0
    let pl2 := setEliminatedPlacements pl team_count eliminated
    .ok (pl2, qualifying)

/-- Embedding of `GroupStage::run`, returning the placement table and the
qualifying teams handed to the playoff stage. -/
def GroupStage.run (t : Tournament) :
    Except Err (TournamentPlacements × List GroupTeam) := do
  let gfixtures ← match t.brackets.groups with
    | some g => .ok g
    | none => .error (.groupsMissing t.tournament_name)
  let st ← gfixtures.foldlM (groupFixtureStep t.tournament_name)
    (([] : TournamentPlacements), ([] : List GroupID), ([] : List (TeamName × GroupTeam)))
  let (pl, groups_seen, team_scores0) := st
  let team_scores ← match t.head_to_head with
    | some h => fillH2HScores h team_scores0
    | none => .ok team_scores0
  groupQualification t.tournament_name t.playoff_teams pl groups_seen team_scores

end BFC

namespace BFC

/-- One iteration of the winners-bracket fixture loop: update placements, give
both participants the coarse rank `teams_left`, and advance the stage
bookkeeping. State: `(placements, stages_left, teams_left, fixtures_in_stage)`. -/
def winnersFixtureStep (t : Tournament)
    (st : TournamentPlacements × Nat × Nat × Nat) (fixture : Fixture) :
    Except Err (TournamentPlacements × Nat × Nat × Nat) := do
  let (pl, stages_left, teams_left, fixtures_in_stage) := st
  let pl1 ← match pl.update_teams fixture false t.tournament_name with
    | .ok v => .ok v
    | .error e => .error (.inWinners t.tournament_name e)
  let lo ← match ← fixture.loser with
    | some x => .ok x
    | none => .error .panicked
  let wi ← match ← fixture.winner with
    | some x => .ok x
    | none => .error .panicked
  let pl2 := (pl1.set_placement lo teams_left).set_placement wi teams_left
  let fis := u8sub fixtures_in_stage 1
  if fis = 0 then
    let sl := u8sub stages_left 1
    let tl := (2 ^ (sl % 256)) % 256
    .ok (pl2, sl, tl, tl / 2)
  else
    .ok (pl2, stages_left, teams_left, fis)

/-- Fuel-bounded floor base-2 logarithm (agrees with `Nat.log2`; structural
recursion so that it evaluates by kernel reduction). -/
def log2Aux : Nat → Nat → Nat
  | 0, _ => 0
  | fuel + 1, n => if n ≤ 1 then 0 else 1 + log2Aux fuel (n / 2)

/-- Floor base-2 logarithm of a team count. -/
def log2floor (n : Nat) : Nat := log2Aux n n

/-- Fuel-bounded ceiling base-2 logarithm (agrees with `Nat.clog 2`). -/
def clog2Aux : Nat → Nat → Nat
  | 0, _ => 0
  | fuel + 1, n => if n ≤ 1 then 0 else 1 + clog2Aux fuel ((n + 1) / 2)

/-- Ceiling base-2 logarithm of a team count. -/
def clog2 (n : Nat) : Nat := clog2Aux n n

/-- Embedding of `PlayoffStage::winners_bracket`.  The source computes the
stage counts with `f32` logarithms of the (`u8`) team count; for these inputs
they agree with the ceiling and floor base-2 logarithms. -/
def winners_bracket (t : Tournament) (pl : TournamentPlacements) :
    Except Err TournamentPlacements := do
  let theoretical_fixtures_in_bracket := u8sub t.playoff_teams 1
  let actual_fixtures_in_bracket := t.brackets.winners.length
  if theoretical_fixtures_in_bracket ≠ actual_fixtures_in_bracket then
    .error (.winnersFixtureCount t.tournament_name theoretical_fixtures_in_bracket
      actual_fixtures_in_bracket)
  else
    let stages_left := clog2 t.playoff_teams
    let teams_left := t.playoff_teams
    let fixtures_in_stage0 := u8sub t.playoff_teams (2 ^ log2floor t.playoff_teams)
    let fixtures_in_stage :=
      if fixtures_in_stage0 = 0 then t.playoff_teams / 2 else fixtures_in_stage0
    let st ← t.brackets.winners.foldlM (winnersFixtureStep t)
      (pl, stages_left, teams_left, fixtures_in_stage)
    let pl1 := st.1
    if t.grand_final.isNone then
      match t.brackets.winners.getLast? with
      | none => .error .panicked
      | some last_game => do
          let w ← last_game.winner
          let l ← last_game.loser
          match w, l with
          | some wi, some lo => .ok ((pl1.set_placement wi 1).set_placement lo 2)
          | _, _ => .ok pl1
    else
      .ok pl1

/-- The stage-cutoff simulation loop at the top of
`PlayoffStage::losers_bracket`, with explicit fuel (the loop strictly
increases `teams_left` for the u8-sized team counts that occur; fuel
exhaustion models non-termination as a failure).  State:
`(stage_cutoff_if_n_teams, stages_left, teams_left, add_teams)`. -/
def losersStageSim (playoff_teams : Nat) :
    Nat → List Nat × Nat × Nat × Nat → Except Err (List Nat × Nat × Nat × Nat)
  | 0, _ => .error .panicked
  | fuel + 1, (cutoffs, stages_left, teams_left, add_teams) =>
    if teams_left < playoff_teams then
      let cutoffs' := cutoffs ++ [teams_left]
      let add' := if stages_left % 2 = 0 then max ((add_teams * 2) % 256) 1 else add_teams
      losersStageSim playoff_teams fuel
        (cutoffs', (stages_left + 1) % 256, u8add teams_left add', add')
    else
      .ok (cutoffs, stages_left, teams_left, add_teams)

/-- One iteration of the losers-bracket fixture loop.  State:
`(placements, stages_left, teams_left, teams_to_subtract)`. -/
def losersFixtureStep (t : Tournament) (cutoffs : List Nat)
    (st : TournamentPlacements × Nat × Nat × Nat) (fixture : Fixture) :
    Except Err (TournamentPlacements × Nat × Nat × Nat) := do
  let (pl, stages_left, teams_left, teams_to_subtract) := st
  let pl1 ← match pl.update_teams fixture false t.tournament_name with
    | .ok v => .ok v
    | .error e => .error (.inLosers t.tournament_name e)
  let lo ← match ← fixture.loser with
    | some x => .ok x
    | none => .error .panicked
  let wi ← match ← fixture.winner with
    | some x => .ok x
    | none => .error .panicked
  let pl2 := (pl1.set_placement lo teams_left).set_placement wi teams_left
  let tts := u8add teams_to_subtract 1
  if u8sub teams_left tts ∈ cutoffs then
    .ok (pl2, u8sub stages_left 1, u8sub teams_left tts, 0)
  else
    .ok (pl2, stages_left, teams_left, tts)

/-- Embedding of `PlayoffStage::losers_bracket`. -/
def losers_bracket (t : Tournament) (pl : TournamentPlacements) :
    Except Err TournamentPlacements := do
  let lfixtures ← match t.brackets.losers with
    | some l => .ok l
    | none => .error .panicked
  let theoretical_fixtures_played := u8sub t.playoff_teams 2
  let actual_fixtures_played := lfixtures.length
  if theoretical_fixtures_played ≠ actual_fixtures_played then
    .error (.losersFixtureCount t.tournament_name theoretical_fixtures_played
      actual_fixtures_played)
  else
    let sim ← losersStageSim t.playoff_teams 100000 ([], 2, 2, 0)
    let (cutoffs, stages_left, _, _) := sim
    let teams_left := t.playoff_teams
    let st ← lfixtures.foldlM (losersFixtureStep t cutoffs) (pl, stages_left, teams_left, 0)
    .ok st.1

/-- The `team_from_losers` computation of `PlayoffStage::grand_final`:
`match team1.placement.unwrap() { 3 => team1.team.name, _ => team2.team.name }`
(the `unwrap` panics on an unset placement). -/
def teamFromLosers (team1 team2 : TeamPlacement) : Except Err TeamName :=
  match team1.placement with
  | none => .error .panicked
  | some 3 => .ok team1.team.name
  | some _ => .ok team2.team.name

/-- One iteration of the fixture loop of `PlayoffStage::grand_final`: fold the
fixture into the placement table (wrapping any error), then stamp the winner
and loser with placements 1 and 2; a drawn fixture reaching this point would
raise the drawn-grand-final error. -/
def gfFixtureStep (nm : String) (plc : TournamentPlacements) (fixture : Fixture) :
    Except Err TournamentPlacements := do
  let pl1 ← match plc.update_teams fixture false nm with
    | .ok v => .ok v
    | .error e => .error (.inGrandFinal nm e)
  let w ← fixture.winner
  let l ← fixture.loser
  match w, l with
  | some winner, some loser =>
      .ok ((pl1.set_placement loser 2).set_placement winner 1)
  | _, _ => .error (.gfDrawn nm)

/-- Embedding of `PlayoffStage::grand_final`. -/
def grand_final (t : Tournament) (pl : TournamentPlacements) :
    Except Err TournamentPlacements := do
  let gf_fixtures ← match t.grand_final with
    | some g => .ok g
    | none => .error .panicked
  if gf_fixtures.length = 0 ∨ gf_fixtures.length > 2 then
    .error (.gfCount t.tournament_name gf_fixtures.length)
  else
    let first_fixture ← match gf_fixtures.head? with
      | some f => .ok f
      | none => .error .panicked
    let team1 ← match alGet first_fixture.team1 pl with
      | some tp => .ok tp
      | none => .error .panicked
    let team2 ← match alGet first_fixture.team2 pl with
      | some tp => .ok tp
      | none => .error .panicked
    let team_from_losers ← teamFromLosers team1 team2
    let _ ← match first_fixture.winner with
      | .error e => .error e
      | .ok (some first_fixture_winner) =>
          if gf_fixtures.length = 1 ∧ first_fixture_winner = team_from_losers then
            .error (.gfWonFromLosers t.tournament_name first_fixture_winner)
          else if gf_fixtures.length = 2 ∧ first_fixture_winner ≠ team_from_losers then
            .error (.gfResetUnneeded t.tournament_name first_fixture_winner)
          else .ok ()
      | .ok none => .ok ()
    gf_fixtures.foldlM (gfFixtureStep t.tournament_name) pl

end BFC

namespace BFC

/-- Reinterpretation of a `u32` value as `i32` (the `as i32` casts in the
final comparator). -/
def i32ofU32 (n : Nat) : Int :=
  if n < 2147483648 then (n : Int) else (n : Int) - 4294967296

/-- Goal difference of a lifetime record, as computed (`as i32`) by the final
comparator of `PlayoffStage::run`. -/
def Team.gd (tm : Team) : Int := i32ofU32 tm.goals_for - i32ofU32 tm.goals_against

/-- Comparison of `Option<GroupTeam>` (`None` sorts below `Some`). -/
def optCmpGT : Option GroupTeam → Option GroupTeam → Ordering
  | none, none => .eq
  | none, some _ => .lt
  | some _, none => .gt
  | some x, some y => GroupTeam.cmp x y

/-- Lazy `then_with` composition for flagged comparisons: continue to the next
stage only on `Equal`, keeping the first flag raised. -/
def thenF (p : Ordering × Option Err) (f : Unit → Ordering × Option Err) :
    Ordering × Option Err :=
  match p with
  | (.eq, e) =>
      let q := f ()
      (q.1, combFirst e q.2)
  | other => other

/-- Stage 4 of the final comparator: the outcome of a previous winners-bracket
fixture between the two teams (only when a losers bracket exists). -/
def prevFixtureOrd (t : Tournament) (a b : TeamPlacement) : Ordering × Option Err :=
  if ¬t.has_losers then (.eq, none)
  else
    let prev_fixtures := t.brackets.winners.filter (fun g =>
      decide ((g.team1 = a.team.name ∧ g.team2 = b.team.name) ∨
        (g.team1 = b.team.name ∧ g.team2 = a.team.name)))
    match prev_fixtures.head? with
    | some g =>
        match g.winner with
        | .ok (some winner) => if winner = a.team.name then (.lt, none) else (.gt, none)
        | .ok none => (.gt, none)
        | .error _ => (.eq, some .sortPrevFixture)
    | none => (.eq, none)

/-- Stage 5 of the final comparator: relative group-stage qualification rank. -/
def groupRankOrd (t : Tournament) (qualifying : Option (List GroupTeam))
    (a b : TeamPlacement) : Ordering × Option Err :=
  if t.brackets.groups.isNone then (.eq, none)
  else
    match qualifying with
    | some qualifying_teams =>
        let a_team := qualifying_teams.find? (fun gt => decide (gt.team = a.team.name))
        let b_team := qualifying_teams.find? (fun gt => decide (gt.team = b.team.name))
        let flag :=
          if a_team.isNone ∨ b_team.isNone then
            some (.missingGroupCompare t.tournament_name a.team.name b.team.name)
          else none
        (optCmpGT b_team a_team, flag)
    | none => (.eq, some .noQualifyingTeams)

/-- Stage 6 of the final comparator: the head-to-head decider value; a missing
value on either side raises the `cantRank` flag. -/
def deciderOrd (t : Tournament) (a b : TeamPlacement) : Ordering × Option Err :=
  match a.head_to_head, b.head_to_head with
  | some x, some y => (compare x y, none)
  | _, _ => (.eq, some (.cantRank a.team.name b.team.name t.tournament_name))

/-- The final ordering comparator of `PlayoffStage::run` (placement ascending,
goal difference descending, goals-for descending, previous winners-bracket
fixture, group-stage rank, head-to-head decider), with its error flag. -/
def pcmp (t : Tournament) (qualifying : Option (List GroupTeam)) (a b : TeamPlacement) :
    Ordering × Option Err :=
  thenF (thenF (thenF (thenF (thenF
    (optCmpNat a.placement b.placement, none)
    (fun _ => (compare b.team.gd a.team.gd, none)))
    (fun _ => (compare b.team.goals_for a.team.goals_for, none)))
    (fun _ => prevFixtureOrd t a b))
    (fun _ => groupRankOrd t qualifying a b))
    (fun _ => deciderOrd t a b)

/-- The final `sort_unstable_by` of `PlayoffStage::run` followed by the
`sort_error?` check. -/
def finalOrder (t : Tournament) (qualifying : Option (List GroupTeam))
    (l : List TeamPlacement) : Except Err (List TeamPlacement) :=
  match sortFlag (pcmp t qualifying) combFirst l with
  | (r, none) => .ok r
  | (_, some e) => .error e

/-- Fill in head-to-head decider values on the placement table
(`expect` panics when the decider names an unknown team). -/
def fillH2HPlacements (h2h : List HeadToHead) (pl : TournamentPlacements) :
    Except Err TournamentPlacements :=
  h2h.foldlM (fun acc d =>
    match alGet d.team acc with
    | none => .error .panicked
    | some _ =>
        .ok (alModify d.team (fun tp => { tp with head_to_head := some d.decider_points }) acc)) pl

/-- The final dense rank rewrite of `PlayoffStage::run`:
`tp.placement = Some(1 + i as u8)`. -/
def rewriteRanks (l : List TeamPlacement) : List TeamPlacement :=
  l.enum.map (fun p => { p.2 with placement := some ((1 + p.1 % 256) % 256) })

/-- The entry check of `PlayoffStage::run`: when groups were played, all
playoff slots must still be unranked. -/
def playoffCheckGroups (t : Tournament) (pl0 : TournamentPlacements) : Except Err Unit :=
  if t.brackets.groups.isSome then
    let unranked_teams := ((alValues pl0).filter (fun tp => tp.placement.isNone)).length
    if unranked_teams ≠ t.playoff_teams then
      .error (.expectedPlayoffTeamsFromGroups t.tournament_name t.playoff_teams unranked_teams)
    else .ok ()
  else .ok ()

/-- The losers-bracket-and-grand-final phase of `PlayoffStage::run`, a no-op
for single-elimination tournaments. -/
def playoffLosersPhase (t : Tournament) (pl1 : TournamentPlacements) :
    Except Err TournamentPlacements :=
  if t.has_losers then do
    let plA ← losers_bracket t pl1
    grand_final t plA
  else .ok pl1

/-- The team-count check of `PlayoffStage::run` for groupless tournaments. -/
def playoffCheckCount (t : Tournament) (pl2 : TournamentPlacements) : Except Err Unit :=
  if t.brackets.groups.isNone ∧ pl2.length ≠ t.playoff_teams then
    .error (.expectedPlayoffTeams t.tournament_name t.playoff_teams pl2.length)
  else .ok ()

/-- The head-to-head decider fill of `PlayoffStage::run`. -/
def playoffFillH2H (t : Tournament) (pl2 : TournamentPlacements) :
    Except Err TournamentPlacements :=
  match t.head_to_head with
  | some h => fillH2HPlacements h pl2
  | none => .ok pl2

/-- Embedding of `PlayoffStage::run`. -/
def PlayoffStage.run (t : Tournament) (pl0 : TournamentPlacements)
    (qualifying_teams : Option (List GroupTeam)) : Except Err (List TeamPlacement) := do
  let _ ← playoffCheckGroups t pl0
  let pl1 ← winners_bracket t pl0
  let pl2 ← playoffLosersPhase t pl1
  let _ ← playoffCheckCount t pl2
  let pl3 ← playoffFillH2H t pl2
  let teams_ordered ← finalOrder t qualifying_teams (alValues pl3)
  .ok (rewriteRanks teams_ordered)

/-- Embedding of `Tournament::run`. -/
def Tournament.run (t : Tournament) : Except Err (List TeamPlacement) :=
  match t.brackets.groups with
  | some _ => do
      let gs ← GroupStage.run t
      PlayoffStage.run t gs.1 (some gs.2)
  | none => PlayoffStage.run t [] none

end BFC

namespace BFC

section SortLemmas

variable {α ε : Type} (f : α → α → Ordering × Option ε) (comb : Option ε → Option ε → Option ε)

lemma combLast_eq_none {ε : Type} (e w : Option ε) : combLast e w = none ↔ e = none ∧ w = none := by
  cases e <;> cases w <;> simp [combLast]

lemma combFirst_eq_none {ε : Type} (e w : Option ε) : combFirst e w = none ↔ e = none ∧ w = none := by
  cases e <;> cases w <;> simp [combFirst]

lemma combLast_eq_some {ε : Type} (e w : Option ε) (err : ε) :
    combLast e w = some err → e = some err ∨ w = some err := by
  cases e <;> cases w <;> simp [combLast] <;> intro h <;> simp [h]

lemma combFirst_eq_some {ε : Type} (e w : Option ε) (err : ε) :
    combFirst e w = some err → e = some err ∨ w = some err := by
  cases e <;> cases w <;> simp [combFirst] <;> intro h <;> simp [h]

lemma insFlag_perm (x : α) : ∀ (ys : List α) (e : Option ε),
    (insFlag f comb x ys e).1.Perm (x :: ys)
  | [], e => by simp [insFlag]
  | y :: ys, e => by
      simp only [insFlag]
      split
      · exact List.Perm.refl _
      · exact ((insFlag_perm x ys _).cons y).trans (List.Perm.swap x y ys)

lemma insFlag_none_of_none
    (hnone : ∀ (e w : Option ε), comb e w = none ↔ e = none ∧ w = none) (x : α) :
    ∀ (ys : List α) (e : Option ε), (insFlag f comb x ys e).2 = none → e = none
  | [], e => by simp [insFlag]
  | y :: ys, e => by
      simp only [insFlag]
      split
      · intro h
        exact ((hnone e (f x y).2).mp h).1
      · intro h
        have h1 := insFlag_none_of_none hnone x ys (comb e (f x y).2) h
        exact ((hnone e (f x y).2).mp h1).1

lemma insFlag_head (x : α) (y : α) (ys : List α) (e : Option ε) :
    ∃ t, (insFlag f comb x (y :: ys) e).1 = x :: y :: ys ∨
      (insFlag f comb x (y :: ys) e).1 = y :: t := by
  simp only [insFlag]
  split
  · exact ⟨[], Or.inl rfl⟩
  · exact ⟨_, Or.inr rfl⟩

lemma insFlag_chain
    (hnone : ∀ (e w : Option ε), comb e w = none ↔ e = none ∧ w = none) (x : α) :
    ∀ (ys : List α) (e : Option ε),
      (insFlag f comb x ys e).2 = none →
      ys.Chain' (fun u v => (f u v).2 = none ∨ (f v u).2 = none) →
      (insFlag f comb x ys e).1.Chain' (fun u v => (f u v).2 = none ∨ (f v u).2 = none)
  | [], e => by simp [insFlag]
  | y :: ys, e => by
      intro h2 hch
      simp only [insFlag] at h2 ⊢
      split at h2
      · rename_i hlt
        simp only [if_pos hlt]
        refine List.Chain'.cons ?_ hch
        exact Or.inl ((hnone e (f x y).2).mp h2).2
      · rename_i hlt
        simp only [if_neg hlt]
        have hrec2 : (insFlag f comb x ys (comb e (f x y).2)).2 = none := h2
        have he1 : comb e (f x y).2 = none := insFlag_none_of_none f comb hnone x ys _ hrec2
        have hw : (f x y).2 = none := ((hnone e (f x y).2).mp he1).2
        have hchain_tail := insFlag_chain hnone x ys (comb e (f x y).2) hrec2 hch.tail
        refine List.chain'_cons'.mpr ⟨?_, hchain_tail⟩
        intro z hz
        rcases ys with _ | ⟨y2, ys'⟩
        · simp [insFlag] at hz
          subst hz
          exact Or.inr hw
        · rcases insFlag_head f comb x y2 ys' (comb e (f x y).2) with ⟨t, ht | ht⟩
          · rw [ht] at hz
            simp at hz
            subst hz
            exact Or.inr hw
          · rw [ht] at hz
            simp at hz
            subst hz
            exact (List.chain'_cons.mp hch).1

lemma sortFlagAux_none_of_none
    (hnone : ∀ (e w : Option ε), comb e w = none ↔ e = none ∧ w = none) :
    ∀ (xs acc : List α) (e : Option ε), (sortFlagAux f comb xs acc e).2 = none → e = none
  | [], acc, e => by simp [sortFlagAux]
  | x :: xs, acc, e => by
      simp only [sortFlagAux]
      intro h
      have h1 := sortFlagAux_none_of_none hnone xs _ _ h
      exact insFlag_none_of_none f comb hnone x acc e h1

lemma sortFlagAux_chain
    (hnone : ∀ (e w : Option ε), comb e w = none ↔ e = none ∧ w = none) :
    ∀ (xs acc : List α) (e : Option ε),
      (sortFlagAux f comb xs acc e).2 = none →
      acc.Chain' (fun u v => (f u v).2 = none ∨ (f v u).2 = none) →
      (sortFlagAux f comb xs acc e).1.Chain' (fun u v => (f u v).2 = none ∨ (f v u).2 = none)
  | [], acc, e => fun _ hc => hc
  | x :: xs, acc, e => by
      intro h hc
      simp only [sortFlagAux] at h ⊢
      have h1 : (insFlag f comb x acc e).2 = none :=
        sortFlagAux_none_of_none f comb hnone xs _ _ h
      exact sortFlagAux_chain hnone xs _ _ h (insFlag_chain f comb hnone x acc e h1 hc)

lemma sortFlag_chain
    (hnone : ∀ (e w : Option ε), comb e w = none ↔ e = none ∧ w = none) (l : List α) :
    (sortFlag f comb l).2 = none →
    (sortFlag f comb l).1.Chain' (fun u v => (f u v).2 = none ∨ (f v u).2 = none) := by
  intro h
  exact sortFlagAux_chain f comb hnone l [] none h (by simp)

lemma sortFlagAux_perm : ∀ (xs acc : List α) (e : Option ε),
    (sortFlagAux f comb xs acc e).1.Perm (xs ++ acc)
  | [], acc, e => by simp [sortFlagAux]
  | x :: xs, acc, e => by
      simp only [sortFlagAux]
      have h1 := sortFlagAux_perm xs (insFlag f comb x acc e).1 (insFlag f comb x acc e).2
      have h2 := insFlag_perm f comb x acc e
      exact (h1.trans (List.Perm.append_left xs h2)).trans List.perm_middle

lemma sortFlag_perm (l : List α) : (sortFlag f comb l).1.Perm l := by
  simpa using sortFlagAux_perm f comb l [] none

lemma insFlag_err
    (hsome : ∀ (e w : Option ε) (err : ε), comb e w = some err → e = some err ∨ w = some err)
    (x : α) :
    ∀ (ys : List α) (e : Option ε) (err : ε),
      (insFlag f comb x ys e).2 = some err →
      e = some err ∨ ∃ y ∈ ys, (f x y).2 = some err
  | [], e, err => by simp [insFlag]
  | y :: ys, e, err => by
      simp only [insFlag]
      split
      · intro h
        rcases hsome e (f x y).2 err h with h1 | h1
        · exact Or.inl h1
        · exact Or.inr ⟨y, by simp, h1⟩
      · intro h
        rcases insFlag_err hsome x ys (comb e (f x y).2) err h with h1 | ⟨z, hz, hfz⟩
        · rcases hsome e (f x y).2 err h1 with h2 | h2
          · exact Or.inl h2
          · exact Or.inr ⟨y, by simp, h2⟩
        · exact Or.inr ⟨z, by simp [hz], hfz⟩

lemma sortFlagAux_err
    (hsome : ∀ (e w : Option ε) (err : ε), comb e w = some err → e = some err ∨ w = some err) :
    ∀ (xs acc : List α) (e : Option ε) (err : ε),
      (sortFlagAux f comb xs acc e).2 = some err →
      e = some err ∨ ∃ u ∈ xs ++ acc, ∃ v ∈ xs ++ acc, (f u v).2 = some err
  | [], acc, e, err => by
      simp only [sortFlagAux]
      exact fun h => Or.inl h
  | x :: xs, acc, e, err => by
      simp only [sortFlagAux]
      intro h
      rcases sortFlagAux_err hsome xs (insFlag f comb x acc e).1 (insFlag f comb x acc e).2 err h with
        h1 | ⟨u, hu, v, hv, hfv⟩
      · rcases insFlag_err f comb hsome x acc e err h1 with h2 | ⟨y, hy, hfy⟩
        · exact Or.inl h2
        · exact Or.inr ⟨x, by simp, y, by simp [hy], hfy⟩
      · have hperm := insFlag_perm f comb x acc e
        have hmem : ∀ w, w ∈ xs ++ (insFlag f comb x acc e).1 → w ∈ (x :: xs) ++ acc := by
          intro w hw
          rcases List.mem_append.mp hw with hw | hw
          · simp [hw]
          · have := hperm.mem_iff.mp hw
            rcases List.mem_cons.mp this with hw2 | hw2
            · simp [hw2]
            · simp [hw2]
        exact Or.inr ⟨u, hmem u hu, v, hmem v hv, hfv⟩

lemma sortFlag_err
    (hsome : ∀ (e w : Option ε) (err : ε), comb e w = some err → e = some err ∨ w = some err)
    (l : List α) (err : ε) :
    (sortFlag f comb l).2 = some err →
    ∃ u ∈ l, ∃ v ∈ l, (f u v).2 = some err := by
  intro h
  rcases sortFlagAux_err f comb hsome l [] none err h with h1 | ⟨u, hu, v, hv, hfv⟩
  · cases h1
  · exact ⟨u, by simpa using hu, v, by simpa using hv, hfv⟩

end SortLemmas

end BFC

namespace BFC

/-- Claim C2, counterexample: the claim states that whenever the two scores
differ the higher scorer is the winner; but on a fixture with scores 3-1 and
penalty goals 1-2 the code declares `team2` (the penalty winner) the winner,
not the higher-scoring `team1`. -/
theorem winner_higher_scorer_cex :
    (3 : Nat) > 1
  ∧ Fixture.winner ⟨.Moai, .Vidya, 3, 1, some 1, some 2, none⟩ = .ok (some TeamName.Vidya)
  ∧ TeamName.Vidya ≠ TeamName.Moai := by
  refine ⟨by omega, by decide, by decide⟩

/-- Claim C2 (amended): full characterization of `Fixture::winner`.  When no
penalty fields are present the higher scorer wins and equal scores are a draw;
when both penalty fields are present and differ, the team with more penalty
goals wins regardless of the scores; `winner` fails with a missing-penalty
error iff exactly one penalty field is present, and with the
unresolved-penalties error iff both are present and equal; these are the only
errors. -/
theorem winner_characterization (f : Fixture) :
    (∀ p, f.pen1 = none → f.pen2 = some p →
      f.winner = .error (.missingPenalty1 f.team1 f.team2 p))
  ∧ (∀ p, f.pen1 = some p → f.pen2 = none →
      f.winner = .error (.missingPenalty2 f.team1 f.team2 p))
  ∧ (∀ p1 p2, f.pen1 = some p1 → f.pen2 = some p2 → p1 = p2 →
      f.winner = .error (.invalidPenalties f.team1 f.team2))
  ∧ ((∃ e, f.winner = .error e) ↔
      (f.pen1.isSome ≠ f.pen2.isSome ∨ (f.pen1.isSome ∧ f.pen1 = f.pen2)))
  ∧ (f.winner = .ok none ↔ f.pen1 = none ∧ f.pen2 = none ∧ f.score1 = f.score2)
  ∧ (f.pen1 = none → f.pen2 = none → f.score1 > f.score2 → f.winner = .ok (some f.team1))
  ∧ (f.pen1 = none → f.pen2 = none → f.score2 > f.score1 → f.winner = .ok (some f.team2))
  ∧ (∀ p1 p2, f.pen1 = some p1 → f.pen2 = some p2 → p1 > p2 → f.winner = .ok (some f.team1))
  ∧ (∀ p1 p2, f.pen1 = some p1 → f.pen2 = some p2 → p1 < p2 → f.winner = .ok (some f.team2)) := by
  refine ⟨?_, ?_, ?_, ?_, ?_, ?_, ?_, ?_, ?_⟩
  · intro p h1 h2
    simp [Fixture.winner, h1, h2]
  · intro p h1 h2
    simp [Fixture.winner, h1, h2]
  · intro p1 p2 h1 h2 he
    subst he
    simp [Fixture.winner, h1, h2]
  · rcases hp1 : f.pen1 with _ | p1 <;> rcases hp2 : f.pen2 with _ | p2
    · simp only [Fixture.winner, hp1, hp2]
      split_ifs <;> simp
    · simp [Fixture.winner, hp1, hp2]
    · simp [Fixture.winner, hp1, hp2]
    · simp only [Fixture.winner, hp1, hp2, Option.isSome_some]
      split_ifs with h <;> simp [h]
  · rcases hp1 : f.pen1 with _ | p1 <;> rcases hp2 : f.pen2 with _ | p2
    · simp only [Fixture.winner, hp1, hp2]
      split_ifs <;> simp <;> omega
    · simp [Fixture.winner, hp1, hp2]
    · simp [Fixture.winner, hp1, hp2]
    · simp only [Fixture.winner, hp1, hp2]
      split_ifs <;> simp
  · intro h1 h2 h3
    simp only [Fixture.winner, h1, h2]
    rw [if_pos h3]
  · intro h1 h2 h3
    simp only [Fixture.winner, h1, h2]
    rw [if_neg (by omega), if_pos h3]
  · intro p1 p2 h1 h2 h3
    simp only [Fixture.winner, h1, h2]
    rw [if_neg (by omega), if_pos h3]
  · intro p1 p2 h1 h2 h3
    simp only [Fixture.winner, h1, h2]
    rw [if_neg (by omega), if_neg (by omega)]

/-- Claim C2, witness: the spec's three concrete examples, obtained from
`winner_characterization`. -/
theorem winner_characterization_witness :
    Fixture.winner ⟨.Moai, .Vidya, 3, 1, none, none, none⟩ = .ok (some TeamName.Moai)
  ∧ Fixture.winner ⟨.Moai, .Vidya, 2, 2, some 5, some 4, none⟩ = .ok (some TeamName.Moai)
  ∧ Fixture.winner ⟨.Moai, .Vidya, 2, 2, none, some 4, none⟩
      = .error (.missingPenalty1 .Moai .Vidya 4) :=
  ⟨(winner_characterization _).2.2.2.2.2.1 rfl rfl (by decide),
   (winner_characterization _).2.2.2.2.2.2.2.1 5 4 rfl rfl (by decide),
   (winner_characterization _).1 4 rfl rfl⟩

end BFC

namespace BFC

lemma beats_chain_irrefl (g : GreatestFixture) : ¬ beats_chain g g := by
  intro h
  rcases h with h | ⟨h1, h2⟩ | ⟨gp1, gp2, fp1, fp2, e1, e2, e3, e4, h⟩
  · omega
  · omega
  · rw [e1] at e3
    rw [e2] at e4
    cases e3
    cases e4
    omega

open Classical in
lemma try_add_greatest_core_eq (tm : Team) (g : GreatestFixture) (win : Bool) :
    tm.try_add_greatest_core g win =
      if ((if win then tm.greatest_win else tm.greatest_loss) = none
          ∨ ∃ gr, (if win then tm.greatest_win else tm.greatest_loss) = some gr
              ∧ beats_chain g gr)
      then (tm.setGreatest win g, true)
      else (tm, false) := by
  rcases hinc : (if win then tm.greatest_win else tm.greatest_loss) with _ | gr
  · rw [if_pos (Or.inl rfl)]
    unfold Team.try_add_greatest_core
    rw [hinc]
  · have hiff : ((none : Option GreatestFixture) = none ∨
        ∃ gr', (some gr : Option GreatestFixture) = some gr' ∧ beats_chain g gr') ↔ True := by simp
    unfold Team.try_add_greatest_core
    rw [hinc]
    dsimp only
    have hcond : ((some gr : Option GreatestFixture) = none
        ∨ ∃ gr', (some gr : Option GreatestFixture) = some gr' ∧ beats_chain g gr')
        ↔ beats_chain g gr := by simp
    rw [if_congr hcond rfl rfl]
    by_cases hA : (absDiff g.fixture.score1 g.fixture.score2
          > absDiff gr.fixture.score1 gr.fixture.score2
        ∨ (absDiff g.fixture.score1 g.fixture.score2
              = absDiff gr.fixture.score1 gr.fixture.score2
            ∧ u8add g.fixture.score1 g.fixture.score2
                > u8add gr.fixture.score1 gr.fixture.score2))
    · rw [if_pos hA]
      rw [if_pos (show beats_chain g gr from
        hA.elim Or.inl (fun hx => Or.inr (Or.inl hx)))]
      simp
    · rw [if_neg hA]
      by_cases hb : beats_chain g gr
      · rcases hb with hx | hx | ⟨gp1, gp2, fp1, fp2, e1, e2, e3, e4, hB⟩
        · exact absurd (Or.inl hx) hA
        · exact absurd (Or.inr hx) hA
        · rw [e1, e2, e3, e4]
          simp only
          have hbe : beats_chain g gr :=
            Or.inr (Or.inr ⟨gp1, gp2, fp1, fp2, e1, e2, e3, e4, hB⟩)
          simp only [if_pos hB]
          rw [if_pos hbe]
          simp
      · rw [if_neg hb]
        rcases hp1 : gr.fixture.pen1 with _ | gp1 <;>
          rcases hp2 : gr.fixture.pen2 with _ | gp2 <;>
          rcases hp3 : g.fixture.pen1 with _ | fp1 <;>
          rcases hp4 : g.fixture.pen2 with _ | fp2 <;>
          simp only
        all_goals
          first
          | rfl
          | (by_cases hB : (absDiff fp1 fp2 > absDiff gp1 gp2
                ∨ (absDiff fp1 fp2 = absDiff gp1 gp2 ∧ u8add fp1 fp2 > u8add gp1 gp2))
             · exact absurd (show beats_chain g gr from
                 Or.inr (Or.inr ⟨gp1, gp2, fp1, fp2, hp1, hp2, hp3, hp4, hB⟩)) hb
             · simp only [if_neg hB]
               rfl)

end BFC

namespace BFC

lemma try_add_greatest_incumbent_self (tm : Team) (g : GreatestFixture) (win : Bool)
    (hinc : (if win then tm.greatest_win else tm.greatest_loss) = some g)
    (r : Team × Bool) (h : tm.try_add_greatest g win = .ok r) : r = (tm, false) := by
  have hcore : tm.try_add_greatest_core g win = (tm, false) := by
    rw [try_add_greatest_core_eq]
    have hno : ¬ ((if win then tm.greatest_win else tm.greatest_loss) = none
        ∨ ∃ gr, (if win then tm.greatest_win else tm.greatest_loss) = some gr
            ∧ beats_chain g gr) := by
      rw [hinc]
      rintro (hc | ⟨gr, hgr, hbe⟩)
      · cases hc
      · cases hgr
        exact beats_chain_irrefl g hbe
    rw [if_neg hno]
  unfold Team.try_add_greatest at h
  by_cases hp : (g.fixture.team1 ≠ tm.name ∧ g.fixture.team2 ≠ tm.name)
  · rw [if_pos hp] at h
    cases h
    rfl
  · rw [if_neg hp] at h
    rcases hw : g.fixture.winner with e' | w
    · rw [hw] at h
      cases h
    · rw [hw] at h
      rcases w with _ | w'
      · dsimp only at h
        rw [hcore] at h
        cases h
        rfl
      · dsimp only at h
        split at h
        · cases h
          rfl
        · rw [hcore] at h
          cases h
          rfl

end BFC

namespace BFC

/-- Claim C3, counterexample: the claim restricts the penalty tie-break to the
case where goal difference and goal total are tied and requires the team to
have won the fixture.  But (a) a new fixture with strictly smaller goal
difference still replaces the greatest win when its penalty shootout compares
higher, and (b) a drawn fixture (no winner) is recorded as a greatest win. -/
theorem try_add_greatest_cex :
    (Team.try_add_greatest
        { Team.from .Moai with
            greatest_win := some ⟨⟨.Moai, .Vidya, 5, 0, some 3, some 1, none⟩, "X"⟩ }
        ⟨⟨.Moai, .Vidya, 1, 0, some 9, some 0, none⟩, "X"⟩ true
      = .ok ({ Team.from .Moai with
            greatest_win := some ⟨⟨.Moai, .Vidya, 1, 0, some 9, some 0, none⟩, "X"⟩ }, true))
  ∧ absDiff 1 0 < absDiff 5 0
  ∧ (Team.try_add_greatest (Team.from .Vidya)
        ⟨⟨.Moai, .Vidya, 0, 0, none, none, none⟩, "X"⟩ true
      = .ok ({ Team.from .Vidya with
            greatest_win := some ⟨⟨.Moai, .Vidya, 0, 0, none, none, none⟩, "X"⟩ }, true))
  ∧ Fixture.winner ⟨.Moai, .Vidya, 0, 0, none, none, none⟩ = .ok none :=
  ⟨rfl, by decide, rfl, rfl⟩

/-- Claim C3 (amended): characterization of `Team::try_add_greatest`.  The
call fails iff the team played the fixture and `winner` fails.  On success the
fixture is recorded as the new greatest win (resp. loss) iff the team played
it, the team is not on the losing (resp. winning) side — a drawn fixture
qualifies for both — and either no greatest is recorded yet (the first fixture
is unconditionally greatest) or the fixture beats the incumbent by
`beats_chain`: strictly greater absolute goal difference, or equal difference
with more total goals, or — whenever that goal-based test fails, not only on
ties — complete penalty data on both fixtures comparing higher by penalty
difference then penalty total. -/
theorem try_add_greatest_characterization :
    (∀ (tm : Team) (g : GreatestFixture) (win : Bool) (e : Err),
      tm.try_add_greatest g win = .error e ↔
        ((g.fixture.team1 = tm.name ∨ g.fixture.team2 = tm.name)
          ∧ g.fixture.winner = .error e))
  ∧ (∀ (tm : Team) (g : GreatestFixture) (win : Bool) (tm' : Team) (b : Bool),
      tm.try_add_greatest g win = .ok (tm', b) →
        ((b = true ↔
          ((g.fixture.team1 = tm.name ∨ g.fixture.team2 = tm.name)
            ∧ (∀ w, g.fixture.winner = .ok (some w) →
                ((win = true → w = tm.name) ∧ (win = false → w ≠ tm.name)))
            ∧ ((if win then tm.greatest_win else tm.greatest_loss) = none
                ∨ ∃ gr, (if win then tm.greatest_win else tm.greatest_loss) = some gr
                    ∧ beats_chain g gr)))
        ∧ (b = true → tm' = tm.setGreatest win g)
        ∧ (b = false → tm' = tm))) := by
  constructor
  · intro tm g win e
    unfold Team.try_add_greatest
    by_cases hp : (g.fixture.team1 ≠ tm.name ∧ g.fixture.team2 ≠ tm.name)
    · rw [if_pos hp]
      constructor
      · intro h
        cases h
      · rintro ⟨hm, -⟩
        rcases hm with hm | hm
        · exact absurd hm hp.1
        · exact absurd hm hp.2
    · rw [if_neg hp]
      have hm : g.fixture.team1 = tm.name ∨ g.fixture.team2 = tm.name := by
        by_contra hcon
        push_neg at hcon
        exact hp ⟨hcon.1, hcon.2⟩
      rcases hw : g.fixture.winner with e' | w
      · dsimp only
        constructor
        · intro h
          injection h with h1
          exact ⟨hm, by rw [h1]⟩
        · intro hx
          injection hx.2 with h1
          rw [h1]
      · rcases w with _ | w'
        · dsimp only
          constructor
          · intro h
            cases h
          · rintro ⟨-, hwe⟩
            cases hwe
        · dsimp only
          constructor
          · intro h
            split at h <;> cases h
          · rintro ⟨-, hwe⟩
            cases hwe
  · intro tm g win tm' b h
    unfold Team.try_add_greatest at h
    by_cases hp : (g.fixture.team1 ≠ tm.name ∧ g.fixture.team2 ≠ tm.name)
    · rw [if_pos hp] at h
      cases h
      refine ⟨?_, by rintro ⟨⟩, fun _ => rfl⟩
      constructor
      · rintro ⟨⟩
      · rintro ⟨hm, -, -⟩
        rcases hm with hm | hm
        · exact absurd hm hp.1
        · exact absurd hm hp.2
    · rw [if_neg hp] at h
      have hm : g.fixture.team1 = tm.name ∨ g.fixture.team2 = tm.name := by
        by_contra hcon
        push_neg at hcon
        exact hp ⟨hcon.1, hcon.2⟩
      rcases hw : g.fixture.winner with e' | w
      · rw [hw] at h
        simp at h
      · rw [hw] at h
        rcases w with _ | w'
        · dsimp only at h
          rw [try_add_greatest_core_eq] at h
          by_cases hc : ((if win then tm.greatest_win else tm.greatest_loss) = none
              ∨ ∃ gr, (if win then tm.greatest_win else tm.greatest_loss) = some gr
                  ∧ beats_chain g gr)
          · rw [if_pos hc] at h
            cases h
            refine ⟨?_, fun _ => rfl, by rintro ⟨⟩⟩
            refine iff_of_true rfl ⟨hm, ?_, hc⟩
            intro w hww
            cases hww
          · rw [if_neg hc] at h
            cases h
            refine ⟨?_, by rintro ⟨⟩, fun _ => rfl⟩
            refine iff_of_false (by simp) ?_
            rintro ⟨-, -, hc3⟩
            exact hc hc3
        · dsimp only at h
          by_cases hf : ((win = true ∧ w' ≠ tm.name) ∨ (win = false ∧ w' = tm.name))
          · rw [if_pos hf] at h
            cases h
            refine ⟨?_, by rintro ⟨⟩, fun _ => rfl⟩
            refine iff_of_false (by simp) ?_
            rintro ⟨-, hcond, -⟩
            have hc2 := hcond w' rfl
            rcases hf with ⟨hwt, hne⟩ | ⟨hwf, heq⟩
            · exact hne (hc2.1 hwt)
            · exact (hc2.2 hwf) heq
          · rw [if_neg hf] at h
            rw [try_add_greatest_core_eq] at h
            by_cases hc : ((if win then tm.greatest_win else tm.greatest_loss) = none
                ∨ ∃ gr, (if win then tm.greatest_win else tm.greatest_loss) = some gr
                    ∧ beats_chain g gr)
            · rw [if_pos hc] at h
              cases h
              refine ⟨?_, fun _ => rfl, by rintro ⟨⟩⟩
              refine iff_of_true rfl ⟨hm, ?_, hc⟩
              intro w hww
              injection hww with h1
              injection h1 with h2
              subst h2
              cases win
              · refine ⟨by rintro ⟨⟩, fun _ => ?_⟩
                intro heq
                exact hf (Or.inr ⟨rfl, heq⟩)
              · refine ⟨fun _ => ?_, by rintro ⟨⟩⟩
                by_contra hne
                exact hf (Or.inl ⟨rfl, hne⟩)
            · rw [if_neg hc] at h
              cases h
              refine ⟨?_, by rintro ⟨⟩, fun _ => rfl⟩
              refine iff_of_false (by simp) ?_
              rintro ⟨-, -, hc3⟩
              exact hc hc3

/-- Claim C3, witness: a first win is unconditionally recorded as greatest,
and an invalid-penalty fixture propagates its error, both obtained from
`try_add_greatest_characterization`. -/
theorem try_add_greatest_characterization_witness :
    ({ Team.from TeamName.Moai with
        greatest_win := some ⟨⟨.Moai, .Vidya, 2, 1, none, none, none⟩, "X"⟩ }
      = (Team.from TeamName.Moai).setGreatest true ⟨⟨.Moai, .Vidya, 2, 1, none, none, none⟩, "X"⟩)
  ∧ (Team.try_add_greatest (Team.from TeamName.Moai)
        ⟨⟨.Moai, .Vidya, 2, 2, some 4, some 4, none⟩, "X"⟩ true
      = .error (.invalidPenalties .Moai .Vidya)) :=
  ⟨((try_add_greatest_characterization.2 (Team.from TeamName.Moai)
      ⟨⟨.Moai, .Vidya, 2, 1, none, none, none⟩, "X"⟩ true
      { Team.from TeamName.Moai with
        greatest_win := some ⟨⟨.Moai, .Vidya, 2, 1, none, none, none⟩, "X"⟩ } true rfl).2.1 rfl).symm,
   (try_add_greatest_characterization.1 (Team.from TeamName.Moai)
      ⟨⟨.Moai, .Vidya, 2, 2, some 4, some 4, none⟩, "X"⟩ true
      (.invalidPenalties .Moai .Vidya)).mpr ⟨Or.inl rfl, rfl⟩⟩

end BFC

namespace BFC

lemma exceptBind_eq_ok {E X Y : Type} (m : Except E X) (k : X → Except E Y) (r : Y)
    (h : (m >>= k) = .ok r) : ∃ x, m = .ok x ∧ k x = .ok r := by
  rcases m with e | x
  · simp only [Bind.bind, Except.bind] at h
    cases h
  · refine ⟨x, rfl, ?_⟩
    simpa only [Bind.bind, Except.bind] using h

lemma addGreatestFrom_self (tm : Team) (og : Option GreatestFixture) (win : Bool)
    (hinc : (if win then tm.greatest_win else tm.greatest_loss) = og) :
    ∀ t2, tm.addGreatestFrom og win = .ok t2 → t2 = tm := by
  intro t2 h
  rcases og with _ | g
  · simp only [Team.addGreatestFrom, pure, Except.pure] at h
    cases h
    rfl
  · simp only [Team.addGreatestFrom] at h
    obtain ⟨r, hr, hpure⟩ := exceptBind_eq_ok _ _ _ h
    have hrr := try_add_greatest_incumbent_self tm g win hinc r hr
    subst hrr
    simp only [pure, Except.pure] at hpure
    cases hpure
    rfl

lemma addMatchupsFrom_preserves (tm : Team) (om : Option (List MatchupHistory)) (t4 : Team)
    (h : tm.addMatchupsFrom om = .ok t4) :
    t4.greatest_win = tm.greatest_win ∧ t4.greatest_loss = tm.greatest_loss := by
  unfold Team.addMatchupsFrom at h
  rcases hms : tm.matchups with _ | ms <;> rw [hms] at h
  · simp only [pure, Except.pure] at h
    cases h
    exact ⟨rfl, rfl⟩
  · rcases om with _ | oms
    · simp only [pure, Except.pure] at h
      cases h
      exact ⟨rfl, rfl⟩
    · simp only at h
      obtain ⟨ms', hfold, hpure⟩ := exceptBind_eq_ok _ _ _ h
      simp only [pure, Except.pure] at hpure
      cases hpure
      exact ⟨rfl, rfl⟩

lemma addParticipationsFrom_preserves (tm : Team) (op : Option (List Participation)) :
    (tm.addParticipationsFrom op).greatest_win = tm.greatest_win
    ∧ (tm.addParticipationsFrom op).greatest_loss = tm.greatest_loss := by
  rcases op with _ | ops <;> exact ⟨rfl, rfl⟩

/-- Claim C9: merging a lifetime record with a copy of itself through
`Team::add` leaves the recorded greatest win and greatest loss unchanged;
the self-merge reproduces the same greatest fixtures. -/
theorem team_add_self_greatest (t t' : Team) (h : Team.add t t = .ok t') :
    t'.greatest_win = t.greatest_win ∧ t'.greatest_loss = t.greatest_loss := by
  unfold Team.add at h
  rw [if_neg (show ¬(t.name ≠ t.name) from fun hx => hx rfl)] at h
  dsimp only at h
  obtain ⟨t2, h2, h⟩ := exceptBind_eq_ok _ _ _ h
  have ht2 := addGreatestFrom_self _ _ false rfl t2 h2
  subst ht2
  obtain ⟨t3, h3, h⟩ := exceptBind_eq_ok _ _ _ h
  have ht3 := addGreatestFrom_self _ _ true rfl t3 h3
  subst ht3
  obtain ⟨t4, h4, h⟩ := exceptBind_eq_ok _ _ _ h
  have hp4 := addMatchupsFrom_preserves _ _ _ h4
  simp only [pure, Except.pure] at h
  cases h
  have hp5 := addParticipationsFrom_preserves t4 t.participations
  exact ⟨hp5.1.trans hp4.1, hp5.2.trans hp4.2⟩

/-- Claim C9, witness: a concrete self-merge, with the preservation of both
greatest fixtures obtained from `team_add_self_greatest`. -/
theorem team_add_self_greatest_witness :
    Team.add
        { Team.from .Moai with
            wins := 1
            greatest_win := some ⟨⟨.Moai, .Vidya, 1, 0, none, none, none⟩, "X"⟩ }
        { Team.from .Moai with
            wins := 1
            greatest_win := some ⟨⟨.Moai, .Vidya, 1, 0, none, none, none⟩, "X"⟩ }
      = .ok { Team.from .Moai with
            wins := 2
            greatest_win := some ⟨⟨.Moai, .Vidya, 1, 0, none, none, none⟩, "X"⟩ }
  ∧ ({ Team.from .Moai with
        wins := 2
        greatest_win := some ⟨⟨.Moai, .Vidya, 1, 0, none, none, none⟩, "X"⟩ } : Team).greatest_win
      = some ⟨⟨.Moai, .Vidya, 1, 0, none, none, none⟩, "X"⟩ :=
  ⟨by rfl,
   (team_add_self_greatest
      { Team.from .Moai with
          wins := 1
          greatest_win := some ⟨⟨.Moai, .Vidya, 1, 0, none, none, none⟩, "X"⟩ }
      { Team.from .Moai with
          wins := 2
          greatest_win := some ⟨⟨.Moai, .Vidya, 1, 0, none, none, none⟩, "X"⟩ }
      (by rfl)).1⟩

end BFC

namespace BFC

lemma optionBind_eq_some {X Y : Type} (m : Option X) (k : X → Option Y) (r : Y)
    (h : (m >>= k) = some r) : ∃ x, m = some x ∧ k x = some r := by
  rcases m with _ | x
  · simp at h
  · exact ⟨x, rfl, by simpa using h⟩

lemma points_table (p : Nat) (hp : p < 256) :
    POINTS.getD (pointsIndex p) 0 =
      (if p = 1 then 1500 else if p = 2 then 1100 else if p = 3 then 900
       else if p = 4 then 750 else if p = 5 then 600 else if p = 6 then 500
       else if p = 7 then 400 else if p = 8 then 300 else if p = 9 then 200
       else if p = 10 then 100 else if p = 11 then 50 else if p = 12 then 25
       else if p = 13 then 12 else if p = 14 then 6 else if p = 15 then 3
       else if p = 16 then 1 else 0) := by
  by_cases hle : p ≤ 16
  · have h1 : pointsIndex p = if p = 0 then 16 else p - 1 := by
      unfold pointsIndex MAX_POINT_IDX
      split_ifs with h0
      · subst h0
        rfl
      · omega
    rw [h1]
    interval_cases p <;> decide
  · have h2 : pointsIndex p = 16 := by
      unfold pointsIndex MAX_POINT_IDX
      omega
    rw [h2]
    rw [show POINTS.getD 16 0 = 0 from rfl]
    rw [if_neg (show ¬ p = 1 by omega), if_neg (show ¬ p = 2 by omega), if_neg (show ¬ p = 3 by omega), if_neg (show ¬ p = 4 by omega), if_neg (show ¬ p = 5 by omega), if_neg (show ¬ p = 6 by omega), if_neg (show ¬ p = 7 by omega), if_neg (show ¬ p = 8 by omega), if_neg (show ¬ p = 9 by omega), if_neg (show ¬ p = 10 by omega), if_neg (show ¬ p = 11 by omega), if_neg (show ¬ p = 12 by omega), if_neg (show ¬ p = 13 by omega), if_neg (show ¬ p = 14 by omega), if_neg (show ¬ p = 15 by omega), if_neg (show ¬ p = 16 by omega)]

lemma mapM_ranked_aux :
    ∀ (tps : List TeamPlacement) (l : List RankedTeam),
      (tps.mapM (fun tp =>
        tp.placement.map (fun p =>
          ({ name := tp.team.name
             ranking_points := [POINTS.getD (pointsIndex p) 0]
             ranks := ([] : List Nat) } : RankedTeam))) = some l) →
      (∀ tp ∈ tps, ∀ p, tp.placement = some p → p < 256) →
      List.Forall₂ (fun tp rt => ∃ p, tp.placement = some p ∧ rt.name = tp.team.name
        ∧ rt.ranks = [] ∧ rt.ranking_points =
          [if p = 1 then 1500 else if p = 2 then 1100 else if p = 3 then 900
           else if p = 4 then 750 else if p = 5 then 600 else if p = 6 then 500
           else if p = 7 then 400 else if p = 8 then 300 else if p = 9 then 200
           else if p = 10 then 100 else if p = 11 then 50 else if p = 12 then 25
           else if p = 13 then 12 else if p = 14 then 6 else if p = 15 then 3
           else if p = 16 then 1 else 0]) tps l
  | [], l => by
      intro h hb
      rw [List.mapM_nil] at h
      cases h
      exact List.Forall₂.nil
  | tp :: tps, l => by
      intro h hb
      rw [List.mapM_cons] at h
      obtain ⟨rt0, hrt0, h⟩ := optionBind_eq_some _ _ _ h
      obtain ⟨xs, hxs, h⟩ := optionBind_eq_some _ _ _ h
      cases h
      rcases hp : tp.placement with _ | p
      · rw [hp] at hrt0
        simp at hrt0
      · rw [hp] at hrt0
        rw [Option.map_some'] at hrt0
        cases hrt0
        have hbound := hb tp (by simp) p hp
        have htail := mapM_ranked_aux tps xs hxs (fun t ht => hb t (by simp [ht]))
        exact List.Forall₂.cons
          ⟨p, hp, rfl, rfl, by rw [← points_table p hbound]⟩ htail

/-- Claim C10: on a resolved tournament result (`u8` placements all present),
`get_teams_ranked` awards each team the season points determined solely by its
final rank through the fixed table 1500, 1100, 900, 750, 600, 500, 400, 300,
200, 100, 50, 25, 12, 6, 3, 1 for ranks 1-16, and 0 for every rank 17 or
greater. -/
theorem get_teams_ranked_points (tr : TournamentResult) (l : List RankedTeam)
    (h : tr.get_teams_ranked = some l)
    (h256 : ∀ tp ∈ tr.team_placements, ∀ p, tp.placement = some p → p < 256) :
    List.Forall₂ (fun tp rt => ∃ p, tp.placement = some p ∧ rt.name = tp.team.name
      ∧ rt.ranks = [] ∧ rt.ranking_points =
        [if p = 1 then 1500 else if p = 2 then 1100 else if p = 3 then 900
         else if p = 4 then 750 else if p = 5 then 600 else if p = 6 then 500
         else if p = 7 then 400 else if p = 8 then 300 else if p = 9 then 200
         else if p = 10 then 100 else if p = 11 then 50 else if p = 12 then 25
         else if p = 13 then 12 else if p = 14 then 6 else if p = 15 then 3
         else if p = 16 then 1 else 0]) tr.team_placements l := by
  unfold TournamentResult.get_teams_ranked at h
  exact mapM_ranked_aux _ _ h h256

/-- Claim C10, witness: ranks 1, 2 and 17 receive 1500, 1100 and 0 points, via
`get_teams_ranked_points`. -/
theorem get_teams_ranked_points_witness :
    List.Forall₂ (fun (tp : TeamPlacement) (rt : RankedTeam) =>
      ∃ p, tp.placement = some p ∧ rt.name = tp.team.name
      ∧ rt.ranks = [] ∧ rt.ranking_points =
        [if p = 1 then 1500 else if p = 2 then 1100 else if p = 3 then 900
         else if p = 4 then 750 else if p = 5 then 600 else if p = 6 then 500
         else if p = 7 then 400 else if p = 8 then 300 else if p = 9 then 200
         else if p = 10 then 100 else if p = 11 then 50 else if p = 12 then 25
         else if p = 13 then 12 else if p = 14 then 6 else if p = 15 then 3
         else if p = 16 then 1 else 0])
      ([TeamPlacement.from (some 1) (Team.from .Moai),
        TeamPlacement.from (some 2) (Team.from .Vidya),
        TeamPlacement.from (some 17) (Team.from .Gambit)] : List TeamPlacement)
      ([{ name := .Moai, ranking_points := [1500], ranks := [] },
        { name := .Vidya, ranking_points := [1100], ranks := [] },
        { name := .Gambit, ranking_points := [0], ranks := [] }] : List RankedTeam) :=
  get_teams_ranked_points
    { tournament_name := "T", season_num := 1, date := 0,
      team_placements :=
        [TeamPlacement.from (some 1) (Team.from .Moai),
         TeamPlacement.from (some 2) (Team.from .Vidya),
         TeamPlacement.from (some 17) (Team.from .Gambit)] }
    [{ name := .Moai, ranking_points := [1500], ranks := [] },
     { name := .Vidya, ranking_points := [1100], ranks := [] },
     { name := .Gambit, ranking_points := [0], ranks := [] }]
    rfl (by decide)

end BFC

namespace BFC

lemma natCompare_swap (a b : Nat) : compare b a = (compare a b).swap := by
  rcases h : compare a b with _ | _ | _
  · exact compare_gt_iff_gt.mpr (compare_lt_iff_lt.mp h)
  · exact compare_eq_iff_eq.mpr (compare_eq_iff_eq.mp h).symm
  · exact compare_lt_iff_lt.mpr (compare_gt_iff_gt.mp h)

lemma intCompare_swap (a b : Int) : compare b a = (compare a b).swap := by
  rcases h : compare a b with _ | _ | _
  · exact compare_gt_iff_gt.mpr (compare_lt_iff_lt.mp h)
  · exact compare_eq_iff_eq.mpr (compare_eq_iff_eq.mp h).symm
  · exact compare_lt_iff_lt.mpr (compare_gt_iff_gt.mp h)

lemma optCmpH2H_swap (a b : Option Nat) : optCmpH2H b a = (optCmpH2H a b).swap := by
  rcases a with _ | x <;> rcases b with _ | y
  · rfl
  · rfl
  · rfl
  · exact natCompare_swap x y

lemma groupTeam_cmp_swap (a b : GroupTeam) :
    GroupTeam.cmp b a = (GroupTeam.cmp a b).swap := by
  unfold GroupTeam.cmp
  rw [Ordering.swap_then, Ordering.swap_then, Ordering.swap_then]
  rw [natCompare_swap a.points b.points, intCompare_swap a.gd b.gd,
    natCompare_swap a.goals_for b.goals_for, optCmpH2H_swap]

lemma groupTeam_cmp_eq_symm (a b : GroupTeam) :
    GroupTeam.cmp a b = .eq ↔ GroupTeam.cmp b a = .eq := by
  rw [groupTeam_cmp_swap a b]
  cases GroupTeam.cmp a b <;> simp [Ordering.swap]

lemma groupTeam_cmp_gt_of (a b : GroupTeam) (h1 : GroupTeam.cmp a b ≠ .eq)
    (h2 : GroupTeam.cmp a b ≠ .lt ∨ GroupTeam.cmp b a = .lt) :
    GroupTeam.cmp a b = .gt := by
  rcases h2 with h2 | h2
  · cases h : GroupTeam.cmp a b
    · exact absurd h h2
    · exact absurd h h1
    · rfl
  · rw [groupTeam_cmp_swap a b] at h2
    cases h : GroupTeam.cmp a b <;> rw [h] at h2 <;> first | cases h2 | rfl

section SortOrdLemmas

variable {α ε : Type} (f : α → α → Ordering × Option ε) (comb : Option ε → Option ε → Option ε)

lemma insFlag_chain_ord (x : α) : ∀ (ys : List α) (e : Option ε),
    ys.Chain' (fun u v => (f v u).1 ≠ .lt ∨ (f u v).1 = .lt) →
    (insFlag f comb x ys e).1.Chain' (fun u v => (f v u).1 ≠ .lt ∨ (f u v).1 = .lt)
  | [], e => by simp [insFlag]
  | y :: ys, e => by
      intro hch
      simp only [insFlag]
      split
      · rename_i hlt
        exact List.Chain'.cons (Or.inr hlt) hch
      · rename_i hlt
        have hchain_tail := insFlag_chain_ord x ys (comb e (f x y).2) hch.tail
        refine List.chain'_cons'.mpr ⟨?_, hchain_tail⟩
        intro z hz
        rcases ys with _ | ⟨y2, ys'⟩
        · simp [insFlag] at hz
          subst hz
          exact Or.inl hlt
        · rcases insFlag_head f comb x y2 ys' (comb e (f x y).2) with ⟨t, ht | ht⟩
          · rw [ht] at hz
            simp at hz
            subst hz
            exact Or.inl hlt
          · rw [ht] at hz
            simp at hz
            subst hz
            exact (List.chain'_cons.mp hch).1

lemma sortFlagAux_chain_ord : ∀ (xs acc : List α) (e : Option ε),
    acc.Chain' (fun u v => (f v u).1 ≠ .lt ∨ (f u v).1 = .lt) →
    (sortFlagAux f comb xs acc e).1.Chain' (fun u v => (f v u).1 ≠ .lt ∨ (f u v).1 = .lt)
  | [], acc, e => fun hc => hc
  | x :: xs, acc, e => by
      intro hc
      simp only [sortFlagAux]
      exact sortFlagAux_chain_ord xs _ _ (insFlag_chain_ord f comb x acc e hc)

lemma sortFlag_chain_ord (l : List α) :
    (sortFlag f comb l).1.Chain' (fun u v => (f v u).1 ≠ .lt ∨ (f u v).1 = .lt) :=
  sortFlagAux_chain_ord f comb l [] none (by simp)

end SortOrdLemmas

end BFC

namespace BFC

lemma chain'_and {α : Type} {R S : α → α → Prop} :
    ∀ (l : List α), l.Chain' R → l.Chain' S → l.Chain' (fun a b => R a b ∧ S a b)
  | [] => by simp
  | [a] => by simp
  | a :: b :: t => by
      intro hr hs
      rw [List.chain'_cons] at hr hs ⊢
      exact ⟨⟨hr.1, hs.1⟩, chain'_and (b :: t) hr.2 hs.2⟩

lemma optCmpH2H_gt (a b : Option Nat) :
    optCmpH2H a b = .gt ↔ ∃ x y, a = some x ∧ b = some y ∧ y < x := by
  rcases a with _ | x <;> rcases b with _ | y <;> simp [optCmpH2H]
  exact compare_gt_iff_gt

lemma optCmpH2H_eq (a b : Option Nat) :
    optCmpH2H a b = .eq ↔ (∀ x y, a = some x → b = some y → x = y) := by
  rcases a with _ | x <;> rcases b with _ | y <;> simp [optCmpH2H]
  exact compare_eq_iff_eq

lemma groupSortCmp_snd_none (u v : GroupTeam) :
    (groupSortCmp u v).2 = none ↔ GroupTeam.cmp v u ≠ .eq := by
  unfold groupSortCmp
  dsimp only
  split_ifs with h <;> simp [h]

/-- Claim C7: characterization of the group tie-break chain and of
`GroupTeams::sort_teams`.  `GroupTeam::cmp` orders by points, then goal
difference, then goals-for, then the head-to-head decider when both values are
present, and is `Equal` exactly when the chain is exhausted.  `sort_teams`
succeeds with a permutation of its input whose every adjacent pair is strictly
ordered by the chain, and fails — naming the two offending teams — whenever a
compared pair is `Equal` (used for qualification, wildcard-candidate ranking
and eliminated-team ordering in `GroupStage::run`). -/
theorem sort_teams_spec :
    (∀ a b : GroupTeam,
      (GroupTeam.cmp a b = .gt ↔
        (b.points < a.points
          ∨ (a.points = b.points ∧ b.gd < a.gd)
          ∨ (a.points = b.points ∧ a.gd = b.gd ∧ b.goals_for < a.goals_for)
          ∨ (a.points = b.points ∧ a.gd = b.gd ∧ a.goals_for = b.goals_for
              ∧ ∃ x y, a.head_to_head = some x ∧ b.head_to_head = some y ∧ y < x)))
      ∧ (GroupTeam.cmp a b = .eq ↔
        (a.points = b.points ∧ a.gd = b.gd ∧ a.goals_for = b.goals_for
          ∧ ∀ x y, a.head_to_head = some x → b.head_to_head = some y → x = y)))
  ∧ (∀ (name : String) (l r : List GroupTeam), sort_teams name l = .ok r →
      r.Perm l ∧ r.Chain' (fun u v => GroupTeam.cmp u v = .gt))
  ∧ (∀ (name : String) (l : List GroupTeam) (e : Err), sort_teams name l = .error e →
      ∃ u ∈ l, ∃ v ∈ l, GroupTeam.cmp u v = .eq ∧ e = .cannotOrder name u.team v.team) := by
  refine ⟨?_, ?_, ?_⟩
  · intro a b
    constructor
    · unfold GroupTeam.cmp
      simp only [Ordering.then_eq_gt, Ordering.then_eq_eq, compare_gt_iff_gt,
        compare_eq_iff_eq, optCmpH2H_gt]
      tauto
    · unfold GroupTeam.cmp
      simp only [Ordering.then_eq_eq, compare_eq_iff_eq, optCmpH2H_eq]
      tauto
  · intro name l r h
    unfold sort_teams at h
    rcases hs : sortFlag groupSortCmp combLast l with ⟨res, flag⟩
    rw [hs] at h
    rcases flag with _ | p
    · dsimp only at h
      cases h
      have hperm := sortFlag_perm groupSortCmp combLast l
      rw [hs] at hperm
      have hflag : (sortFlag groupSortCmp combLast l).2 = none := by rw [hs]
      have hchainf := sortFlag_chain groupSortCmp combLast combLast_eq_none l hflag
      have hchaino := sortFlag_chain_ord groupSortCmp combLast l
      rw [hs] at hchainf hchaino
      refine ⟨hperm, List.Chain'.imp ?_ (chain'_and _ hchainf hchaino)⟩
      rintro u v ⟨hf, ho⟩
      have hne : GroupTeam.cmp u v ≠ .eq := by
        rcases hf with hf | hf
        · exact fun hx => (groupSortCmp_snd_none u v).mp hf ((groupTeam_cmp_eq_symm u v).mp hx)
        · exact fun hx => (groupSortCmp_snd_none v u).mp hf hx
      exact groupTeam_cmp_gt_of u v hne ho
    · dsimp only at h
      cases h
  · intro name l e h
    unfold sort_teams at h
    rcases hs : sortFlag groupSortCmp combLast l with ⟨res, flag⟩
    rw [hs] at h
    rcases flag with _ | p
    · dsimp only at h
      cases h
    · dsimp only at h
      have hflag : (sortFlag groupSortCmp combLast l).2 = some p := by rw [hs]
      obtain ⟨u, hu, v, hv, hf⟩ :=
        sortFlag_err groupSortCmp combLast (fun e w err => combLast_eq_some e w err) l p hflag
      unfold groupSortCmp at hf
      dsimp only at hf
      split_ifs at hf with hcmp
      injection hf with hf1
      subst hf1
      cases h
      exact ⟨v, hv, u, hu, hcmp, rfl⟩

/-- Claim C7, witness: a tied pair fails naming both teams, and a strictly
ordered pair sorts descending, via `sort_teams_spec`. -/
theorem sort_teams_spec_witness :
    (∃ u ∈ [(⟨.A, .Moai, 3, 2, 1, none⟩ : GroupTeam), ⟨.A, .Vidya, 3, 2, 1, none⟩],
      ∃ v ∈ [(⟨.A, .Moai, 3, 2, 1, none⟩ : GroupTeam), ⟨.A, .Vidya, 3, 2, 1, none⟩],
        GroupTeam.cmp u v = .eq
        ∧ (Err.cannotOrder "G" TeamName.Moai TeamName.Vidya)
            = .cannotOrder "G" u.team v.team)
  ∧ (([(⟨.A, .Vidya, 6, 4, 0, none⟩ : GroupTeam), ⟨.A, .Moai, 3, 2, 1, none⟩]).Perm
      [⟨.A, .Moai, 3, 2, 1, none⟩, ⟨.A, .Vidya, 6, 4, 0, none⟩]
    ∧ ([(⟨.A, .Vidya, 6, 4, 0, none⟩ : GroupTeam), ⟨.A, .Moai, 3, 2, 1, none⟩]).Chain'
        (fun u v => GroupTeam.cmp u v = .gt)) :=
  ⟨sort_teams_spec.2.2 "G" _ _ rfl,
   sort_teams_spec.2.1 "G"
     [⟨.A, .Moai, 3, 2, 1, none⟩, ⟨.A, .Vidya, 6, 4, 0, none⟩] _ rfl⟩

end BFC

namespace BFC

lemma optCmpNat_eq_iff (a b : Option Nat) : optCmpNat a b = .eq ↔ a = b := by
  rcases a with _ | x <;> rcases b with _ | y <;> simp [optCmpNat]
  exact compare_eq_iff_eq

lemma prevFixtureOrd_flag_eq (t : Tournament) (a b : TeamPlacement) (e : Err)
    (h : (prevFixtureOrd t a b).2 = some e) :
    (prevFixtureOrd t a b).1 = .eq ∧ e = .sortPrevFixture := by
  unfold prevFixtureOrd at h ⊢
  by_cases hl : ¬t.has_losers
  · rw [if_pos hl] at h
    cases h
  · rw [if_neg hl] at h ⊢
    dsimp only at h ⊢
    rcases hh : (t.brackets.winners.filter (fun g =>
        decide ((g.team1 = a.team.name ∧ g.team2 = b.team.name)
          ∨ (g.team1 = b.team.name ∧ g.team2 = a.team.name)))).head? with _ | g <;>
      rw [hh] at h ⊢ <;> dsimp only at h ⊢
    · cases h
    · rcases hw : g.winner with e' | w <;> rw [hw] at h <;> (try dsimp only at h ⊢)
      · injection h with h1
        exact ⟨rfl, h1.symm⟩
      · rcases w with _ | w' <;> (try dsimp only at h)
        · cases h
        · split at h <;> cases h

lemma groupRankOrd_flag_ne_cantRank (t : Tournament) (q : Option (List GroupTeam))
    (a b : TeamPlacement) (t1 t2 : TeamName) (nm : String) :
    (groupRankOrd t q a b).2 ≠ some (.cantRank t1 t2 nm) := by
  unfold groupRankOrd
  split
  · simp
  · rcases q with _ | qts
    · simp
    · dsimp only
      split <;> simp

lemma prevFixtureOrd_flag_ne_cantRank (t : Tournament) (a b : TeamPlacement)
    (t1 t2 : TeamName) (nm : String) :
    (prevFixtureOrd t a b).2 ≠ some (.cantRank t1 t2 nm) := by
  intro h
  rcases prevFixtureOrd_flag_eq t a b _ h with ⟨-, h2⟩
  cases h2

lemma deciderOrd_some_h2h (t : Tournament) (a b : TeamPlacement)
    (h : a.head_to_head.isSome ∧ b.head_to_head.isSome) :
    ∃ x y, a.head_to_head = some x ∧ b.head_to_head = some y
      ∧ deciderOrd t a b = (compare x y, none) := by
  rcases ha : a.head_to_head with _ | x
  · rw [ha] at h
    simp at h
  · rcases hb : b.head_to_head with _ | y
    · rw [hb] at h
      simp at h
    · exact ⟨x, y, rfl, rfl, by unfold deciderOrd; rw [ha, hb]⟩

lemma deciderOrd_none_h2h (t : Tournament) (a b : TeamPlacement)
    (h : ¬(a.head_to_head.isSome ∧ b.head_to_head.isSome)) :
    deciderOrd t a b =
      (.eq, some (.cantRank a.team.name b.team.name t.tournament_name)) := by
  unfold deciderOrd
  rcases ha : a.head_to_head with _ | x <;> rcases hb : b.head_to_head with _ | y
  · rfl
  · rfl
  · rfl
  · exact absurd (by rw [ha, hb]; exact ⟨rfl, rfl⟩) h

lemma pcmp_eval_tied (t : Tournament) (q : Option (List GroupTeam)) (a b : TeamPlacement)
    (h1 : a.placement = b.placement) (h2 : a.team.gd = b.team.gd)
    (h3 : a.team.goals_for = b.team.goals_for)
    (h4 : (prevFixtureOrd t a b).1 = .eq) (h5 : (groupRankOrd t q a b).1 = .eq) :
    pcmp t q a b = ((deciderOrd t a b).1,
      combFirst (combFirst (prevFixtureOrd t a b).2 (groupRankOrd t q a b).2)
        (deciderOrd t a b).2) := by
  have e1 : optCmpNat a.placement b.placement = .eq := (optCmpNat_eq_iff _ _).mpr h1
  have e2 : compare b.team.gd a.team.gd = .eq := compare_eq_iff_eq.mpr h2.symm
  have e3 : compare b.team.goals_for a.team.goals_for = .eq := compare_eq_iff_eq.mpr h3.symm
  rcases p4 : prevFixtureOrd t a b with ⟨o4, f4⟩
  rcases p5 : groupRankOrd t q a b with ⟨o5, f5⟩
  rcases p6 : deciderOrd t a b with ⟨o6, f6⟩
  rw [p4] at h4
  rw [p5] at h5
  dsimp only at h4 h5 ⊢
  subst h4
  subst h5
  unfold pcmp
  rw [e1, e2, e3, p4, p5, p6]
  simp only [thenF, combFirst]

lemma pcmp_flag_of_tied_missing (t : Tournament) (q : Option (List GroupTeam))
    (a b : TeamPlacement)
    (h1 : a.placement = b.placement) (h2 : a.team.gd = b.team.gd)
    (h3 : a.team.goals_for = b.team.goals_for)
    (h4 : (prevFixtureOrd t a b).1 = .eq) (h5 : (groupRankOrd t q a b).1 = .eq)
    (h6 : ¬(a.head_to_head.isSome ∧ b.head_to_head.isSome)) :
    (pcmp t q a b).2 ≠ none := by
  rw [pcmp_eval_tied t q a b h1 h2 h3 h4 h5]
  rw [deciderOrd_none_h2h t a b h6]
  rcases (prevFixtureOrd t a b).2 with _ | x <;>
    rcases (groupRankOrd t q a b).2 with _ | y <;> simp [combFirst]

end BFC

namespace BFC

lemma prevFixtureOrd_eq_symm (t : Tournament) (a b : TeamPlacement)
    (h : (prevFixtureOrd t a b).1 = .eq) : (prevFixtureOrd t b a).1 = .eq := by
  unfold prevFixtureOrd at h ⊢
  by_cases hl : ¬t.has_losers
  · rw [if_pos hl]
  · rw [if_neg hl] at h ⊢
    dsimp only at h ⊢
    have hfil : t.brackets.winners.filter (fun g =>
          decide ((g.team1 = b.team.name ∧ g.team2 = a.team.name)
            ∨ (g.team1 = a.team.name ∧ g.team2 = b.team.name)))
        = t.brackets.winners.filter (fun g =>
          decide ((g.team1 = a.team.name ∧ g.team2 = b.team.name)
            ∨ (g.team1 = b.team.name ∧ g.team2 = a.team.name))) :=
      List.filter_congr (fun g _ => decide_eq_decide.mpr (by tauto))
    rw [hfil]
    rcases hh : (t.brackets.winners.filter (fun g =>
        decide ((g.team1 = a.team.name ∧ g.team2 = b.team.name)
          ∨ (g.team1 = b.team.name ∧ g.team2 = a.team.name)))).head? with _ | g
    · rw [hh]
    · rw [hh] at h ⊢
      dsimp only at h ⊢
      rcases hw : g.winner with e' | w
      · rfl
      · rw [hw] at h
        rcases w with _ | w'
        · dsimp only at h
          cases h
        · dsimp only at h ⊢
          split at h <;> cases h

lemma groupRankOrd_eq_symm (t : Tournament) (q : Option (List GroupTeam))
    (a b : TeamPlacement)
    (h : (groupRankOrd t q a b).1 = .eq) : (groupRankOrd t q b a).1 = .eq := by
  unfold groupRankOrd at h ⊢
  by_cases hg : t.brackets.groups.isNone
  · rw [if_pos hg]
  · rw [if_neg hg] at h ⊢
    rcases q with _ | qts
    · rfl
    · dsimp only at h ⊢
      rcases hfa : qts.find? (fun gt => decide (gt.team = a.team.name)) with _ | ga <;>
        rcases hfb : qts.find? (fun gt => decide (gt.team = b.team.name)) with _ | gb <;>
        rw [hfa, hfb] at h ⊢
      · rfl
      · cases h
      · cases h
      · exact (groupTeam_cmp_eq_symm gb ga).mp h

lemma deciderOrd_flag_some (t : Tournament) (a b : TeamPlacement) (e : Err)
    (h : (deciderOrd t a b).2 = some e) :
    ¬(a.head_to_head.isSome ∧ b.head_to_head.isSome)
    ∧ e = .cantRank a.team.name b.team.name t.tournament_name := by
  unfold deciderOrd at h
  rcases ha : a.head_to_head with _ | x <;> rcases hb : b.head_to_head with _ | y <;>
    rw [ha, hb] at h <;> (try dsimp only at h)
  · injection h with h1
    exact ⟨by simp, h1.symm⟩
  · injection h with h1
    exact ⟨by simp, h1.symm⟩
  · injection h with h1
    exact ⟨by simp, h1.symm⟩
  · cases h

lemma thenF_flag_src {p : Ordering × Option Err} {f : Unit → Ordering × Option Err} {e : Err}
    (h : (thenF p f).2 = some e) :
    p.2 = some e ∨ (p.1 = .eq ∧ p.2 = none ∧ (f ()).2 = some e) := by
  unfold thenF at h
  rcases p with ⟨o, pe⟩
  rcases o <;> dsimp only at h
  · exact Or.inl h
  · rcases pe with _ | z
    · exact Or.inr ⟨rfl, rfl, by simpa [combFirst] using h⟩
    · simp only [combFirst] at h
      exact Or.inl h
  · exact Or.inl h

lemma thenF_fst_eq {p : Ordering × Option Err} {f : Unit → Ordering × Option Err}
    (h : (thenF p f).1 = .eq) : p.1 = .eq ∧ (f ()).1 = .eq := by
  unfold thenF at h
  rcases p with ⟨o, pe⟩
  rcases o <;> dsimp only at h
  · cases h
  · exact ⟨rfl, h⟩
  · cases h

lemma pcmp_flag_cantRank (t : Tournament) (q : Option (List GroupTeam))
    (a b : TeamPlacement) (t1 t2 : TeamName) (nm : String)
    (h : (pcmp t q a b).2 = some (.cantRank t1 t2 nm)) :
    a.placement = b.placement ∧ a.team.gd = b.team.gd ∧ a.team.goals_for = b.team.goals_for
    ∧ (prevFixtureOrd t a b).1 = .eq ∧ (groupRankOrd t q a b).1 = .eq
    ∧ ¬(a.head_to_head.isSome ∧ b.head_to_head.isSome)
    ∧ t1 = a.team.name ∧ t2 = b.team.name ∧ nm = t.tournament_name := by
  unfold pcmp at h
  rcases thenF_flag_src h with h5 | ⟨h5eq, h5none, h6⟩
  · -- the flag would have to come from stages 1-5, none of which raises cantRank
    exfalso
    rcases thenF_flag_src h5 with h4 | ⟨h4eq, h4none, hg⟩
    · rcases thenF_flag_src h4 with h3 | ⟨h3eq, h3none, hp⟩
      · rcases thenF_flag_src h3 with h2 | ⟨h2eq, h2none, hx⟩
        · rcases thenF_flag_src h2 with h1 | ⟨h1eq, h1none, hx⟩
          · cases h1
          · cases hx
        · cases hx
      · exact absurd hp (prevFixtureOrd_flag_ne_cantRank t a b t1 t2 nm)
    · exact absurd hg (groupRankOrd_flag_ne_cantRank t q a b t1 t2 nm)
  · (try dsimp only at h6)
    obtain ⟨hmiss, heq⟩ := deciderOrd_flag_some t a b (.cantRank t1 t2 nm) h6
    injection heq with he1 he2 he3
    obtain ⟨h4eq, hgeq⟩ := thenF_fst_eq h5eq
    (try dsimp only at hgeq)
    obtain ⟨h3eq, hpeq⟩ := thenF_fst_eq h4eq
    (try dsimp only at hpeq)
    obtain ⟨h2eq, hgf⟩ := thenF_fst_eq h3eq
    (try dsimp only at hgf)
    obtain ⟨h1eq, hgd⟩ := thenF_fst_eq h2eq
    (try dsimp only at h1eq hgd)
    exact ⟨(optCmpNat_eq_iff _ _).mp h1eq, (compare_eq_iff_eq.mp hgd).symm,
      (compare_eq_iff_eq.mp hgf).symm, hpeq, hgeq, hmiss, he1, he2, he3⟩

end BFC

namespace BFC

/-- Claim C8: in the final ordering of placements of a resolved tournament,
whenever a pairwise comparison reaches the head-to-head decider for a pair
still tied after placement, goal difference, goals for, previous
winners-bracket fixture and group-stage rank, and a compared team lacks the
decider value, the whole resolution fails with a `cantRank` error naming the
two teams and the tournament; conversely a successful resolution is a
permutation of the input in which no adjacent pair is in that situation, so
such a pair is never silently treated as equal. -/
theorem final_order_decider_spec :
    (∀ (t : Tournament) (q : Option (List GroupTeam)) (l r : List TeamPlacement),
        finalOrder t q l = .ok r →
        r.Perm l ∧ r.Chain' (fun a b =>
          ¬(a.placement = b.placement ∧ a.team.gd = b.team.gd
            ∧ a.team.goals_for = b.team.goals_for
            ∧ (prevFixtureOrd t a b).1 = .eq ∧ (groupRankOrd t q a b).1 = .eq
            ∧ ¬(a.head_to_head.isSome ∧ b.head_to_head.isSome))))
    ∧ (∀ (t : Tournament) (q : Option (List GroupTeam)) (l : List TeamPlacement)
        (t1 t2 : TeamName) (nm : String),
        finalOrder t q l = .error (.cantRank t1 t2 nm) →
        ∃ a ∈ l, ∃ b ∈ l, t1 = a.team.name ∧ t2 = b.team.name ∧ nm = t.tournament_name
          ∧ a.placement = b.placement ∧ a.team.gd = b.team.gd
          ∧ a.team.goals_for = b.team.goals_for
          ∧ (prevFixtureOrd t a b).1 = .eq ∧ (groupRankOrd t q a b).1 = .eq
          ∧ ¬(a.head_to_head.isSome ∧ b.head_to_head.isSome)) := by
  constructor
  · intro t q l r h
    unfold finalOrder at h
    rcases hs : sortFlag (pcmp t q) combFirst l with ⟨r0, fl⟩
    rw [hs] at h
    rcases fl with _ | e
    · dsimp only at h
      injection h with h1
      subst h1
      constructor
      · have hp := sortFlag_perm (pcmp t q) combFirst l
        rw [hs] at hp
        exact hp
      · have hch := sortFlag_chain (pcmp t q) combFirst combFirst_eq_none l (by rw [hs])
        rw [hs] at hch
        refine List.Chain'.imp ?_ hch
        intro a b hab habs
        obtain ⟨e1, e2, e3, e4, e5, e6⟩ := habs
        rcases hab with hab | hab
        · exact pcmp_flag_of_tied_missing t q a b e1 e2 e3 e4 e5 e6 hab
        · exact pcmp_flag_of_tied_missing t q b a e1.symm e2.symm e3.symm
            (prevFixtureOrd_eq_symm t a b e4) (groupRankOrd_eq_symm t q a b e5)
            (fun hc => e6 ⟨hc.2, hc.1⟩) hab
    · dsimp only at h
      cases h
  · intro t q l t1 t2 nm h
    unfold finalOrder at h
    rcases hs : sortFlag (pcmp t q) combFirst l with ⟨r0, fl⟩
    rw [hs] at h
    rcases fl with _ | e
    · dsimp only at h
      cases h
    · dsimp only at h
      injection h with h1
      subst h1
      have hsrc := sortFlag_err (pcmp t q) combFirst combFirst_eq_some l
        (.cantRank t1 t2 nm) (by rw [hs])
      obtain ⟨u, hu, v, hv, hf⟩ := hsrc
      obtain ⟨c1, c2, c3, c4, c5, c6, c7, c8, c9⟩ := pcmp_flag_cantRank t q u v t1 t2 nm hf
      exact ⟨u, hu, v, hv, c7, c8, c9, c1, c2, c3, c4, c5, c6⟩

theorem final_order_decider_spec_witness :
    ∃ a ∈ [TeamPlacement.from (some 1) (Team.from .Moai),
           TeamPlacement.from (some 1) (Team.from .Vidya)],
      ∃ b ∈ [TeamPlacement.from (some 1) (Team.from .Moai),
             TeamPlacement.from (some 1) (Team.from .Vidya)],
        TeamName.Vidya = a.team.name ∧ TeamName.Moai = b.team.name
        ∧ "T" = (⟨"T", 1, 0, false, 2, ⟨[], none, none⟩, none, none⟩
            : Tournament).tournament_name
        ∧ a.placement = b.placement ∧ a.team.gd = b.team.gd
        ∧ a.team.goals_for = b.team.goals_for
        ∧ (prevFixtureOrd ⟨"T", 1, 0, false, 2, ⟨[], none, none⟩, none, none⟩ a b).1 = .eq
        ∧ (groupRankOrd ⟨"T", 1, 0, false, 2, ⟨[], none, none⟩, none, none⟩ none a b).1 = .eq
        ∧ ¬(a.head_to_head.isSome ∧ b.head_to_head.isSome) :=
  final_order_decider_spec.2 ⟨"T", 1, 0, false, 2, ⟨[], none, none⟩, none, none⟩ none
    [TeamPlacement.from (some 1) (Team.from .Moai),
     TeamPlacement.from (some 1) (Team.from .Vidya)] .Vidya .Moai "T" rfl

end BFC

namespace BFC

lemma exceptBind_ok_eval {E X Y : Type} (x : X) (k : X → Except E Y) :
    ((Except.ok x : Except E X) >>= k) = k x := rfl

lemma exceptBind_error_eval {E X Y : Type} (e : E) (k : X → Except E Y) :
    ((Except.error e : Except E X) >>= k) = .error e := rfl

lemma alGet_append_self {β : Type} (k : TeamName) (d : β) :
    ∀ (m : List (TeamName × β)), alGet k m = none → alGet k (m ++ [(k, d)]) = some d
  | [], _ => by simp [alGet]
  | kv :: rest, h => by
      by_cases hk : kv.1 = k
      · rw [alGet, if_pos hk] at h
        cases h
      · rw [alGet, if_neg hk] at h
        rw [List.cons_append, alGet, if_neg hk]
        exact alGet_append_self k d rest h

lemma alUpdateEntry_err {β : Type} (k : TeamName) (dflt : β) (fp : β → Except Err β)
    (m : List (TeamName × β)) (e : Err) (hfp : ∀ v, fp v = .error e) :
    alUpdateEntry k dflt fp m = .error e := by
  unfold alUpdateEntry
  rcases hm : alGet k m with _ | v0
  · dsimp only [Option.isSome]
    rw [if_neg (by simp), alGet_append_self k dflt m hm]
    dsimp only
    rw [hfp dflt]
    rfl
  · dsimp only [Option.isSome]
    rw [if_pos rfl, hm]
    dsimp only
    rw [hfp v0]
    rfl

lemma update_team_drawn (m : TournamentPlacements) (f : Fixture) (nm : String)
    (hw : f.winner = .ok none) :
    TournamentPlacements.update_team m f true false nm
      = .error (.playoffDraw nm f.team1 f.team2) := by
  unfold TournamentPlacements.update_team
  refine alUpdateEntry_err _ _ _ _ _ ?_
  intro v
  dsimp only
  rw [hw]
  rcases hp1 : f.pen1 with _ | p1 <;> rcases hp2 : f.pen2 with _ | p2 <;> rfl

lemma update_teams_drawn (m : TournamentPlacements) (f : Fixture) (nm : String)
    (hw : f.winner = .ok none) :
    TournamentPlacements.update_teams m f false nm
      = .error (.playoffDraw nm f.team1 f.team2) := by
  unfold TournamentPlacements.update_teams
  rw [update_team_drawn m f nm hw]
  rfl

lemma foldlM_ok_forall {E X A : Type} (step : A → X → Except E A) :
    ∀ (l : List X) (a r : A), l.foldlM step a = .ok r →
      ∀ x ∈ l, ∃ s u, step s x = .ok u
  | [], _, _ => by
      intro _ y hy
      cases hy
  | x :: xs, a, r => by
      intro h y hy
      rw [List.foldlM_cons] at h
      obtain ⟨a2, ha2, hrest⟩ := exceptBind_eq_ok _ _ _ h
      rcases List.mem_cons.mp hy with rfl | hy2
      · exact ⟨a, a2, ha2⟩
      · exact foldlM_ok_forall step xs a2 r hrest y hy2

end BFC

namespace BFC

/-- Claim C6: grand-final resolution fails when a 1-fixture grand final is won
by the team that came from the losers bracket (error naming the winner), or
when the first fixture of a 2-fixture grand final was won by the
winners-bracket team (error naming the winner); a drawn grand-final fixture
makes the placement update fail hard with an error naming both teams, and
consequently a successful grand-final resolution contains no drawn fixture. -/
theorem grand_final_validation_spec :
    (∀ (t : Tournament) (pl : TournamentPlacements) (f : Fixture)
        (tp1 tp2 : TeamPlacement) (w : TeamName),
        t.grand_final = some [f] →
        alGet f.team1 pl = some tp1 → alGet f.team2 pl = some tp2 →
        teamFromLosers tp1 tp2 = .ok w →
        f.winner = .ok (some w) →
        grand_final t pl = .error (.gfWonFromLosers t.tournament_name w))
    ∧ (∀ (t : Tournament) (pl : TournamentPlacements) (f1 f2 : Fixture)
        (tp1 tp2 : TeamPlacement) (tfl w : TeamName),
        t.grand_final = some [f1, f2] →
        alGet f1.team1 pl = some tp1 → alGet f1.team2 pl = some tp2 →
        teamFromLosers tp1 tp2 = .ok tfl →
        f1.winner = .ok (some w) → w ≠ tfl →
        grand_final t pl = .error (.gfResetUnneeded t.tournament_name w))
    ∧ (∀ (m : TournamentPlacements) (f : Fixture) (nm : String),
        f.winner = .ok none →
        TournamentPlacements.update_teams m f false nm
          = .error (.playoffDraw nm f.team1 f.team2))
    ∧ (∀ (t : Tournament) (pl r : TournamentPlacements) (gfs : List Fixture),
        grand_final t pl = .ok r → t.grand_final = some gfs →
        ∀ f ∈ gfs, f.winner ≠ .ok none) := by
  refine ⟨?_, ?_, ?_, ?_⟩
  · intro t pl f tp1 tp2 w h1 h2 h3 hfl hw
    unfold grand_final
    rw [h1]
    (try dsimp only)
    rw [exceptBind_ok_eval]
    (try dsimp only)
    rw [if_neg (by simp), List.head?_cons]
    (try dsimp only)
    rw [exceptBind_ok_eval]
    (try dsimp only)
    rw [h2]
    (try dsimp only)
    rw [exceptBind_ok_eval]
    (try dsimp only)
    rw [h3]
    (try dsimp only)
    rw [exceptBind_ok_eval]
    (try dsimp only)
    rw [hfl, exceptBind_ok_eval]
    (try dsimp only)
    rw [hw]
    (try dsimp only)
    rw [if_pos ⟨by simp, rfl⟩, exceptBind_error_eval]
  · intro t pl f1 f2 tp1 tp2 tfl w h1 h2 h3 hfl hw hne
    unfold grand_final
    rw [h1]
    (try dsimp only)
    rw [exceptBind_ok_eval]
    (try dsimp only)
    rw [if_neg (by simp), List.head?_cons]
    (try dsimp only)
    rw [exceptBind_ok_eval]
    (try dsimp only)
    rw [h2]
    (try dsimp only)
    rw [exceptBind_ok_eval]
    (try dsimp only)
    rw [h3]
    (try dsimp only)
    rw [exceptBind_ok_eval]
    (try dsimp only)
    rw [hfl, exceptBind_ok_eval]
    (try dsimp only)
    rw [hw]
    (try dsimp only)
    rw [if_neg (by simp), if_pos ⟨by simp, hne⟩, exceptBind_error_eval]
  · intro m f nm hw
    exact update_teams_drawn m f nm hw
  · intro t pl r gfs hok hg f hf hw
    have hkill : ∀ (pls r2 : TournamentPlacements),
        gfs.foldlM (gfFixtureStep t.tournament_name) pls = .ok r2 → False := by
      intro pls r2 hfold
      obtain ⟨s, u, hstep⟩ := foldlM_ok_forall _ gfs pls r2 hfold f hf
      unfold gfFixtureStep at hstep
      rw [update_teams_drawn s f t.tournament_name hw] at hstep
      dsimp only at hstep
      rw [exceptBind_error_eval] at hstep
      cases hstep
    unfold grand_final at hok
    rw [hg] at hok
    (try dsimp only at hok)
    rw [exceptBind_ok_eval] at hok
    (try dsimp only at hok)
    by_cases hlen : gfs.length = 0 ∨ gfs.length > 2
    · rw [if_pos hlen] at hok
      cases hok
    · rw [if_neg hlen] at hok
      rcases hh : gfs.head? with _ | f1
      · rw [hh] at hok
        (try dsimp only at hok)
        rw [exceptBind_error_eval] at hok
        cases hok
      · rw [hh] at hok
        (try dsimp only at hok)
        rw [exceptBind_ok_eval] at hok
        (try dsimp only at hok)
        rcases h2 : alGet f1.team1 pl with _ | tp1
        · rw [h2] at hok
          (try dsimp only at hok)
          rw [exceptBind_error_eval] at hok
          cases hok
        · rw [h2] at hok
          (try dsimp only at hok)
          rw [exceptBind_ok_eval] at hok
          (try dsimp only at hok)
          rcases h3 : alGet f1.team2 pl with _ | tp2
          · rw [h3] at hok
            (try dsimp only at hok)
            rw [exceptBind_error_eval] at hok
            cases hok
          · rw [h3] at hok
            (try dsimp only at hok)
            rw [exceptBind_ok_eval] at hok
            (try dsimp only at hok)
            rcases hfl : teamFromLosers tp1 tp2 with e | tfl
            · rw [hfl] at hok
              rw [exceptBind_error_eval] at hok
              cases hok
            · rw [hfl] at hok
              rw [exceptBind_ok_eval] at hok
              (try dsimp only at hok)
              rcases hfw : f1.winner with e | ow
              · rw [hfw] at hok
                (try dsimp only at hok)
                rw [exceptBind_error_eval] at hok
                cases hok
              · rw [hfw] at hok
                rcases ow with _ | ffw
                · dsimp only at hok
                  rw [exceptBind_ok_eval] at hok
                  exact hkill pl r hok
                · dsimp only at hok
                  by_cases hc1 : gfs.length = 1 ∧ ffw = tfl
                  · rw [if_pos hc1] at hok
                    rw [exceptBind_error_eval] at hok
                    cases hok
                  · rw [if_neg hc1] at hok
                    by_cases hc2 : gfs.length = 2 ∧ ffw ≠ tfl
                    · rw [if_pos hc2] at hok
                      rw [exceptBind_error_eval] at hok
                      cases hok
                    · rw [if_neg hc2] at hok
                      rw [exceptBind_ok_eval] at hok
                      exact hkill pl r hok

theorem grand_final_validation_spec_witness :
    grand_final
        ⟨"T", 1, 0, true, 2, ⟨[], none, none⟩,
          some [⟨.Moai, .Vidya, 1, 0, none, none, none⟩], none⟩
        [(.Moai, TeamPlacement.from (some 3) (Team.from .Moai)),
         (.Vidya, TeamPlacement.from (some 2) (Team.from .Vidya))]
      = .error (.gfWonFromLosers "T" .Moai) :=
  grand_final_validation_spec.1
    ⟨"T", 1, 0, true, 2, ⟨[], none, none⟩,
      some [⟨.Moai, .Vidya, 1, 0, none, none, none⟩], none⟩
    [(.Moai, TeamPlacement.from (some 3) (Team.from .Moai)),
     (.Vidya, TeamPlacement.from (some 2) (Team.from .Vidya))]
    ⟨.Moai, .Vidya, 1, 0, none, none, none⟩
    (TeamPlacement.from (some 3) (Team.from .Moai))
    (TeamPlacement.from (some 2) (Team.from .Vidya)) .Moai rfl rfl rfl rfl rfl

end BFC

namespace BFC

lemma sort_teams_ok_perm (nm : String) (l r : List GroupTeam)
    (h : sort_teams nm l = .ok r) : r.Perm l := by
  unfold sort_teams at h
  rcases hs : sortFlag groupSortCmp combLast l with ⟨r0, fl⟩
  rw [hs] at h
  rcases fl with _ | p
  · dsimp only at h
    injection h with h1
    subst h1
    have hp := sortFlag_perm groupSortCmp combLast l
    rw [hs] at hp
    exact hp
  · dsimp only at h
    cases h

lemma forall₂_mem_right {α β : Type} {R : α → β → Prop} :
    ∀ {l1 : List α} {l2 : List β}, List.Forall₂ R l1 l2 → ∀ b ∈ l2, ∃ a ∈ l1, R a b := by
  intro l1 l2 h
  induction h with
  | nil =>
      intro b hb
      cases hb
  | cons hr _ ih =>
      intro b hb
      rcases List.mem_cons.mp hb with rfl | hb2
      · exact ⟨_, by simp, hr⟩
      · obtain ⟨a, ha, hra⟩ := ih b hb2
        exact ⟨a, by simp [ha], hra⟩

lemma flatten_take_len (q : Nat) :
    ∀ (ps : List (List GroupTeam × GroupTeam)),
      (∀ p ∈ ps, q ≤ p.1.length) →
      ((ps.map (fun p => p.1.take q)).flatten).length = q * ps.length
  | [], _ => by simp
  | p :: rest, h => by
      simp only [List.map_cons, List.flatten_cons, List.length_append, List.length_take]
      rw [min_eq_left (h p (by simp))]
      rw [flatten_take_len q rest (fun x hx => h x (by simp [hx]))]
      simp [Nat.mul_succ]
      ring

lemma qualifyLoop_spec (name : String) (q : Nat) (ts : List (TeamName × GroupTeam)) :
    ∀ (groups : List GroupID) (st0 st : List GroupTeam × List GroupTeam),
      groups.foldlM (qualifyStep name q ts) st0 = .ok st →
      ∃ pairs : List (List GroupTeam × GroupTeam),
        List.Forall₂ (fun g p =>
          sort_teams name ((alValues ts).filter (fun gt => decide (gt.group = g))) = .ok p.1
          ∧ ¬ q > p.1.length
          ∧ (p.1.drop q).head? = some p.2
          ∧ p.2.group = g) groups pairs
        ∧ st.1 = st0.1 ++ pairs.map (fun p => p.2)
        ∧ st.2 = st0.2 ++ (pairs.map (fun p => p.1.take q)).flatten
  | [], st0, st => by
      intro h
      rw [List.foldlM_nil] at h
      cases h
      exact ⟨[], List.Forall₂.nil, by simp, by simp⟩
  | g :: gs, st0, st => by
      intro h
      rw [List.foldlM_cons] at h
      obtain ⟨st1, hstep, hrest⟩ := exceptBind_eq_ok _ _ _ h
      rcases st0 with ⟨wc0, qt0⟩
      unfold qualifyStep at hstep
      (try dsimp only at hstep)
      obtain ⟨sorted, hsort, hstep⟩ := exceptBind_eq_ok _ _ _ hstep
      (try dsimp only at hstep)
      by_cases hq : q > sorted.length
      · rw [if_pos hq] at hstep
        cases hstep
      · rw [if_neg hq] at hstep
        rcases hc : (sorted.drop q).head? with _ | cand
        · rw [hc] at hstep
          (try dsimp only at hstep)
          cases hstep
        · rw [hc] at hstep
          (try dsimp only at hstep)
          injection hstep with h1
          subst h1
          obtain ⟨pairs, hfa, h2, h3⟩ := qualifyLoop_spec name q ts gs _ st hrest
          have hmem : cand ∈ sorted := by
            rcases hd : sorted.drop q with _ | ⟨c, rest⟩
            · rw [hd] at hc
              cases hc
            · rw [hd] at hc
              injection hc with hc1
              subst hc1
              exact List.mem_of_mem_drop (by rw [hd]; exact List.mem_cons_self _ _)
          have hgrp : cand.group = g := by
            have hmf := (sort_teams_ok_perm name _ sorted hsort).mem_iff.mp hmem
            exact of_decide_eq_true (List.mem_filter.mp hmf).2
          refine ⟨(sorted, cand) :: pairs, List.Forall₂.cons ⟨hsort, hq, hc, hgrp⟩ hfa, ?_, ?_⟩
          · rw [h2]
            simp
          · rw [h3]
            simp

end BFC

namespace BFC

lemma groupQual_spec (name : String) (P : Nat) (pl0 : TournamentPlacements)
    (groups : List GroupID) (ts : List (TeamName × GroupTeam))
    (pl : TournamentPlacements) (qual : List GroupTeam)
    (h : groupQualification name P pl0 groups ts = .ok (pl, qual)) :
    groups.length ≠ 0
    ∧ ∃ cands kept sorted_cands,
      groups.foldlM (qualifyStep name (P / groups.length) ts) ([], []) = .ok (cands, kept)
      ∧ sort_teams name cands = .ok sorted_cands
      ∧ qual = kept ++ sorted_cands.take (P - P / groups.length * groups.length)
      ∧ qual.length = P := by
  unfold groupQualification at h
  (try dsimp only at h)
  by_cases hG : groups.length = 0
  · rw [if_pos hG] at h
    cases h
  · rw [if_neg hG] at h
    obtain ⟨wq, hwq, h⟩ := exceptBind_eq_ok _ _ _ h
    (try dsimp only at h)
    obtain ⟨sorted_cands, hsc, h⟩ := exceptBind_eq_ok _ _ _ h
    (try dsimp only at h)
    obtain ⟨elim, hel, h⟩ := exceptBind_eq_ok _ _ _ h
    (try dsimp only at h)
    injection h with h1
    injection h1 with hpl hqual
    subst hqual
    refine ⟨hG, wq.1, wq.2, sorted_cands, ?_, hsc, rfl, ?_⟩
    · rw [Prod.mk.eta]
      exact hwq
    · obtain ⟨pairs, hfa, hp1, hp2⟩ :=
        qualifyLoop_spec name (P / groups.length) ts groups ([], []) wq hwq
      have hql : ∀ p ∈ pairs, P / groups.length ≤ p.1.length := by
        intro p hp
        obtain ⟨g, hg, hrel⟩ := forall₂_mem_right hfa p hp
        exact Nat.le_of_not_lt hrel.2.1
      have hlenpairs : pairs.length = groups.length := hfa.length_eq.symm
      have hkept : wq.2.length = P / groups.length * groups.length := by
        rw [hp2]
        simp only [List.nil_append]
        rw [flatten_take_len _ pairs hql, hlenpairs]
      have hcand : wq.1.length = groups.length := by
        rw [hp1]
        simp [hlenpairs]
      have hscl : sorted_cands.length = groups.length := by
        rw [(sort_teams_ok_perm name wq.1 sorted_cands hsc).length_eq, hcand]
      rw [List.length_append, List.length_take, hkept, hscl]
      have h1' : P / groups.length * groups.length ≤ P := Nat.div_mul_le_self P groups.length
      have h2' : P / groups.length * groups.length + P % groups.length = P := by
        rw [Nat.mul_comm]
        exact Nat.div_add_mod P groups.length
      have h3' : P % groups.length < groups.length := Nat.mod_lt P (Nat.pos_of_ne_zero hG)
      generalize hA : P / groups.length * groups.length = a at h1' h2' ⊢
      generalize hB : P % groups.length = b at h2' h3'
      rw [min_eq_left (by omega)]
      omega

end BFC

namespace BFC

/-- Claim C5: in group-stage qualification over the distinct groups seen, each
group contributes `playoff_teams / groups` automatic qualifiers - the top of
its sorted standings - and exactly one wildcard candidate per group: the best
non-qualified team, which belongs to that group. The candidates are globally
sorted and the top `playoff_teams - (playoff_teams / groups) * groups` of them
qualify as wildcards, so a successful group stage hands exactly
`playoff_teams` qualifying teams to the playoffs. -/
theorem group_stage_qualification_spec :
    (∀ (name : String) (q : Nat) (ts : List (TeamName × GroupTeam))
        (groups : List GroupID) (st : List GroupTeam × List GroupTeam),
        groups.foldlM (qualifyStep name q ts) ([], []) = .ok st →
        ∃ pairs : List (List GroupTeam × GroupTeam),
          List.Forall₂ (fun g p =>
            sort_teams name ((alValues ts).filter (fun gt => decide (gt.group = g))) = .ok p.1
            ∧ ¬ q > p.1.length
            ∧ (p.1.drop q).head? = some p.2
            ∧ p.2.group = g) groups pairs
          ∧ st.1 = pairs.map (fun p => p.2)
          ∧ st.2 = (pairs.map (fun p => p.1.take q)).flatten
          ∧ st.1.length = groups.length
          ∧ st.2.length = q * groups.length)
    ∧ (∀ (t : Tournament) (pl : TournamentPlacements) (qual : List GroupTeam),
        GroupStage.run t = .ok (pl, qual) →
        ∃ (ts : List (TeamName × GroupTeam)) (groups : List GroupID)
          (cands kept sorted_cands : List GroupTeam),
          groups.length ≠ 0
          ∧ groups.foldlM (qualifyStep t.tournament_name
              (t.playoff_teams / groups.length) ts) ([], []) = .ok (cands, kept)
          ∧ sort_teams t.tournament_name cands = .ok sorted_cands
          ∧ qual = kept ++ sorted_cands.take
              (t.playoff_teams - t.playoff_teams / groups.length * groups.length)
          ∧ qual.length = t.playoff_teams) := by
  constructor
  · intro name q ts groups st h
    obtain ⟨pairs, hfa, h1, h2⟩ := qualifyLoop_spec name q ts groups ([], []) st h
    have hql : ∀ p ∈ pairs, q ≤ p.1.length := by
      intro p hp
      obtain ⟨g, hg, hrel⟩ := forall₂_mem_right hfa p hp
      exact Nat.le_of_not_lt hrel.2.1
    have hlenpairs : pairs.length = groups.length := hfa.length_eq.symm
    have h1' : st.1 = pairs.map (fun p => p.2) := by simpa using h1
    have h2' : st.2 = (pairs.map (fun p => p.1.take q)).flatten := by simpa using h2
    refine ⟨pairs, hfa, h1', h2', ?_, ?_⟩
    · rw [h1']
      simp [hlenpairs]
    · rw [h2', flatten_take_len q pairs hql, hlenpairs]
  · intro t pl qual h
    unfold GroupStage.run at h
    rcases hg : t.brackets.groups with _ | gfx
    · rw [hg] at h
      (try dsimp only at h)
      rw [exceptBind_error_eval] at h
      cases h
    · rw [hg] at h
      (try dsimp only at h)
      rw [exceptBind_ok_eval] at h
      (try dsimp only at h)
      obtain ⟨st, hfold, h⟩ := exceptBind_eq_ok _ _ _ h
      rcases st with ⟨pl0, groups, ts0⟩
      (try dsimp only at h)
      rcases hh : t.head_to_head with _ | h2h
      · rw [hh] at h
        (try dsimp only at h)
        rw [exceptBind_ok_eval] at h
        (try dsimp only at h)
        obtain ⟨hG, cands, kept, sc, hfold2, hsort, hqual, hlen⟩ :=
          groupQual_spec _ _ _ _ _ _ _ h
        exact ⟨ts0, groups, cands, kept, sc, hG, hfold2, hsort, hqual, hlen⟩
      · rw [hh] at h
        (try dsimp only at h)
        obtain ⟨ts1, hfill, h⟩ := exceptBind_eq_ok _ _ _ h
        (try dsimp only at h)
        obtain ⟨hG, cands, kept, sc, hfold2, hsort, hqual, hlen⟩ :=
          groupQual_spec _ _ _ _ _ _ _ h
        exact ⟨ts1, groups, cands, kept, sc, hG, hfold2, hsort, hqual, hlen⟩

end BFC

namespace BFC

theorem group_stage_qualification_spec_witness :
    ∃ (ts : List (TeamName × GroupTeam)) (groups : List GroupID)
      (cands kept sorted_cands : List GroupTeam),
      groups.length ≠ 0
      ∧ groups.foldlM (qualifyStep "G1" (1 / groups.length) ts) ([], []) = .ok (cands, kept)
      ∧ sort_teams "G1" cands = .ok sorted_cands
      ∧ [(⟨.A, .Moai, 3, 1, 0, none⟩ : GroupTeam)]
          = kept ++ sorted_cands.take (1 - 1 / groups.length * groups.length)
      ∧ [(⟨.A, .Moai, 3, 1, 0, none⟩ : GroupTeam)].length = 1 :=
  group_stage_qualification_spec.2
    ⟨"G1", 1, 0, false, 1, ⟨[], none, some [⟨.Moai, .Vidya, 1, 0, none, none, some .A⟩]⟩,
      none, none⟩
    [(.Moai, ⟨⟨.Moai, 0, 1, 0, 0, 0, 1, 0, 0,
        some ⟨⟨.Moai, .Vidya, 1, 0, none, none, some .A⟩, "G1"⟩, none,
        some [⟨.Vidya, 0, 1, 0, 0, 0, 1, 0, 0⟩], none, none⟩, none, none⟩),
     (.Vidya, ⟨⟨.Vidya, 1, 0, 0, 0, 0, 0, 0, 1,
        none, some ⟨⟨.Moai, .Vidya, 1, 0, none, none, some .A⟩, "G1"⟩,
        some [⟨.Moai, 1, 0, 0, 0, 0, 0, 0, 1⟩], none, none⟩, some 2, none⟩)]
    [⟨.A, .Moai, 3, 1, 0, none⟩] rfl

end BFC

namespace BFC

lemma alModify_keys {β : Type} (k : TeamName) (f : β → β) :
    ∀ (m : List (TeamName × β)), (alModify k f m).map Prod.fst = m.map Prod.fst
  | [] => rfl
  | kv :: rest => by
      by_cases hk : kv.1 = k
      · rw [alModify, if_pos hk]
        simp
      · rw [alModify, if_neg hk]
        simp [alModify_keys k f rest]

lemma alGet_none_not_mem {β : Type} (k : TeamName) :
    ∀ (m : List (TeamName × β)), alGet k m = none → k ∉ m.map Prod.fst
  | [] => by simp
  | kv :: rest => by
      intro h
      by_cases hk : kv.1 = k
      · rw [alGet, if_pos hk] at h
        cases h
      · rw [alGet, if_neg hk] at h
        simp only [List.map_cons, List.mem_cons]
        rintro (rfl | hmem)
        · exact hk rfl
        · exact alGet_none_not_mem k rest h hmem

lemma alUpdateEntry_nodup {β : Type} (k : TeamName) (d : β) (fp : β → Except Err β)
    (m m2 : List (TeamName × β)) (h : alUpdateEntry k d fp m = .ok m2)
    (hnd : (m.map Prod.fst).Nodup) : (m2.map Prod.fst).Nodup := by
  unfold alUpdateEntry at h
  rcases hm : alGet k m with _ | v0
  · rw [hm] at h
    (try dsimp only at h)
    rw [if_neg (by simp), alGet_append_self k d m hm] at h
    (try dsimp only at h)
    obtain ⟨v1, hv1, h⟩ := exceptBind_eq_ok _ _ _ h
    injection h with h1
    subst h1
    rw [alModify_keys]
    have hk : k ∉ m.map Prod.fst := alGet_none_not_mem k m hm
    simp only [List.map_append, List.map_cons, List.map_nil]
    rw [List.nodup_append]
    refine ⟨hnd, by simp, ?_⟩
    intro a ha hb
    simp only [List.mem_cons, List.not_mem_nil, or_false] at hb
    subst hb
    exact hk ha
  · rw [hm] at h
    simp only [Option.isSome_some, if_true] at h
    rw [hm] at h
    (try dsimp only at h)
    obtain ⟨v1, hv1, h⟩ := exceptBind_eq_ok _ _ _ h
    injection h with h1
    subst h1
    rw [alModify_keys]
    exact hnd

lemma update_team_nodup (m : TournamentPlacements) (f : Fixture) (b g : Bool) (nm : String)
    (m2 : TournamentPlacements) (h : TournamentPlacements.update_team m f b g nm = .ok m2)
    (hnd : (m.map Prod.fst).Nodup) : (m2.map Prod.fst).Nodup := by
  unfold TournamentPlacements.update_team at h
  exact alUpdateEntry_nodup _ _ _ _ _ h hnd

lemma update_teams_nodup (m : TournamentPlacements) (f : Fixture) (g : Bool) (nm : String)
    (m2 : TournamentPlacements) (h : TournamentPlacements.update_teams m f g nm = .ok m2)
    (hnd : (m.map Prod.fst).Nodup) : (m2.map Prod.fst).Nodup := by
  unfold TournamentPlacements.update_teams at h
  obtain ⟨m1, h1, h2⟩ := exceptBind_eq_ok _ _ _ h
  exact update_team_nodup _ _ _ _ _ _ h2 (update_team_nodup _ _ _ _ _ _ h1 hnd)

lemma set_placement_keys (m : TournamentPlacements) (team : TeamName) (p : Nat) :
    ((m.set_placement team p).map Prod.fst) = m.map Prod.fst :=
  alModify_keys _ _ m

lemma foldlM_preserve {E X A : Type} (step : A → X → Except E A) (Q : A → Prop)
    (hstep : ∀ a x a2, step a x = .ok a2 → Q a → Q a2) :
    ∀ (l : List X) (a a2 : A), l.foldlM step a = .ok a2 → Q a → Q a2
  | [], a, a2 => by
      intro h hq
      rw [List.foldlM_nil] at h
      cases h
      exact hq
  | x :: xs, a, a2 => by
      intro h hq
      rw [List.foldlM_cons] at h
      obtain ⟨a1, h1, h2⟩ := exceptBind_eq_ok _ _ _ h
      exact foldlM_preserve step Q hstep xs a1 a2 h2 (hstep a x a1 h1 hq)

end BFC

namespace BFC

lemma winnersFixtureStep_nodup (t : Tournament) (st : TournamentPlacements × Nat × Nat × Nat)
    (x : Fixture) (st2 : TournamentPlacements × Nat × Nat × Nat)
    (h : winnersFixtureStep t st x = .ok st2) (hnd : (st.1.map Prod.fst).Nodup) :
    (st2.1.map Prod.fst).Nodup := by
  rcases st with ⟨pl, a, b, c⟩
  unfold winnersFixtureStep at h
  (try dsimp only at h)
  rcases hu : TournamentPlacements.update_teams pl x false t.tournament_name with e | pl1
  · rw [hu] at h
    (try dsimp only at h)
    rw [exceptBind_error_eval] at h
    cases h
  · rw [hu] at h
    (try dsimp only at h)
    rw [exceptBind_ok_eval] at h
    (try dsimp only at h)
    have hpl1 := update_teams_nodup _ _ _ _ _ hu hnd
    obtain ⟨lr, hlr, h⟩ := exceptBind_eq_ok _ _ _ h
    (try dsimp only at h)
    rcases lr with _ | lo
    · (try dsimp only at h)
      rw [exceptBind_error_eval] at h
      cases h
    · (try dsimp only at h)
      rw [exceptBind_ok_eval] at h
      (try dsimp only at h)
      obtain ⟨wr, hwr, h⟩ := exceptBind_eq_ok _ _ _ h
      (try dsimp only at h)
      rcases wr with _ | wi
      · (try dsimp only at h)
        rw [exceptBind_error_eval] at h
        cases h
      · (try dsimp only at h)
        rw [exceptBind_ok_eval] at h
        (try dsimp only at h)
        split at h <;>
          (injection h with h1b
           subst h1b
           dsimp only
           rw [set_placement_keys, set_placement_keys]
           exact hpl1)

lemma losersFixtureStep_nodup (t : Tournament) (cutoffs : List Nat)
    (st : TournamentPlacements × Nat × Nat × Nat)
    (x : Fixture) (st2 : TournamentPlacements × Nat × Nat × Nat)
    (h : losersFixtureStep t cutoffs st x = .ok st2) (hnd : (st.1.map Prod.fst).Nodup) :
    (st2.1.map Prod.fst).Nodup := by
  rcases st with ⟨pl, a, b, c⟩
  unfold losersFixtureStep at h
  (try dsimp only at h)
  rcases hu : TournamentPlacements.update_teams pl x false t.tournament_name with e | pl1
  · rw [hu] at h
    (try dsimp only at h)
    rw [exceptBind_error_eval] at h
    cases h
  · rw [hu] at h
    (try dsimp only at h)
    rw [exceptBind_ok_eval] at h
    (try dsimp only at h)
    have hpl1 := update_teams_nodup _ _ _ _ _ hu hnd
    obtain ⟨lr, hlr, h⟩ := exceptBind_eq_ok _ _ _ h
    (try dsimp only at h)
    rcases lr with _ | lo
    · (try dsimp only at h)
      rw [exceptBind_error_eval] at h
      cases h
    · (try dsimp only at h)
      rw [exceptBind_ok_eval] at h
      (try dsimp only at h)
      obtain ⟨wr, hwr, h⟩ := exceptBind_eq_ok _ _ _ h
      (try dsimp only at h)
      rcases wr with _ | wi
      · (try dsimp only at h)
        rw [exceptBind_error_eval] at h
        cases h
      · (try dsimp only at h)
        rw [exceptBind_ok_eval] at h
        (try dsimp only at h)
        split at h <;>
          (injection h with h1b
           subst h1b
           dsimp only
           rw [set_placement_keys, set_placement_keys]
           exact hpl1)

lemma gfFixtureStep_nodup (nm : String) (pl : TournamentPlacements) (x : Fixture)
    (pl2 : TournamentPlacements) (h : gfFixtureStep nm pl x = .ok pl2)
    (hnd : (pl.map Prod.fst).Nodup) : (pl2.map Prod.fst).Nodup := by
  unfold gfFixtureStep at h
  rcases hu : TournamentPlacements.update_teams pl x false nm with e | pl1
  · rw [hu] at h
    (try dsimp only at h)
    rw [exceptBind_error_eval] at h
    cases h
  · rw [hu] at h
    (try dsimp only at h)
    rw [exceptBind_ok_eval] at h
    (try dsimp only at h)
    have hpl1 := update_teams_nodup _ _ _ _ _ hu hnd
    obtain ⟨w, hw, h⟩ := exceptBind_eq_ok _ _ _ h
    (try dsimp only at h)
    obtain ⟨l, hl, h⟩ := exceptBind_eq_ok _ _ _ h
    (try dsimp only at h)
    rcases w with _ | w1 <;> rcases l with _ | l1 <;> (try dsimp only at h) <;> cases h
    rw [set_placement_keys, set_placement_keys]
    exact hpl1

lemma groupFixtureStep_nodup (nm : String)
    (st : TournamentPlacements × List GroupID × List (TeamName × GroupTeam)) (x : Fixture)
    (st2 : TournamentPlacements × List GroupID × List (TeamName × GroupTeam))
    (h : groupFixtureStep nm st x = .ok st2) (hnd : (st.1.map Prod.fst).Nodup) :
    (st2.1.map Prod.fst).Nodup := by
  rcases st with ⟨pl, gs, ts⟩
  unfold groupFixtureStep at h
  (try dsimp only at h)
  rcases hu : TournamentPlacements.update_teams pl x true nm with e | pl1
  · rw [hu] at h
    (try dsimp only at h)
    rw [exceptBind_error_eval] at h
    cases h
  · rw [hu] at h
    (try dsimp only at h)
    rw [exceptBind_ok_eval] at h
    (try dsimp only at h)
    have hpl1 := update_teams_nodup _ _ _ _ _ hu hnd
    rcases hfg : x.group with _ | g
    · rw [hfg] at h
      (try dsimp only at h)
      rw [exceptBind_error_eval] at h
      cases h
    · rw [hfg] at h
      (try dsimp only at h)
      rw [exceptBind_ok_eval] at h
      (try dsimp only at h)
      injection h with h1b
      subst h1b
      exact hpl1

lemma fillH2HPlacements_keys :
    ∀ (h2h : List HeadToHead) (m m2 : TournamentPlacements),
      fillH2HPlacements h2h m = .ok m2 → m2.map Prod.fst = m.map Prod.fst
  | [], m, m2 => by
      intro h
      unfold fillH2HPlacements at h
      rw [List.foldlM_nil] at h
      cases h
      rfl
  | d :: rest, m, m2 => by
      intro h
      unfold fillH2HPlacements at h
      rw [List.foldlM_cons] at h
      obtain ⟨m1, hstep, hrest⟩ := exceptBind_eq_ok _ _ _ h
      have hm1 : m1.map Prod.fst = m.map Prod.fst := by
        rcases hg : alGet d.team m with _ | v
        · rw [hg] at hstep
          cases hstep
        · rw [hg] at hstep
          (try dsimp only at hstep)
          injection hstep with h1
          subst h1
          exact alModify_keys _ _ m
      have := fillH2HPlacements_keys rest m1 m2 (by unfold fillH2HPlacements; exact hrest)
      rw [this, hm1]

lemma setEliminatedPlacements_keys (team_count : Nat) :
    ∀ (l : List (Nat × GroupTeam)) (pl : TournamentPlacements),
      ((l.foldl (fun acc p => acc.set_placement p.2.team ((team_count - p.1) % 256)) pl).map
        Prod.fst) = pl.map Prod.fst
  | [], pl => rfl
  | p :: rest, pl => by
      rw [List.foldl_cons, setEliminatedPlacements_keys team_count rest _, set_placement_keys]

end BFC

namespace BFC

lemma finalOrder_ok_perm (t : Tournament) (q : Option (List GroupTeam))
    (l r : List TeamPlacement) (h : finalOrder t q l = .ok r) : r.Perm l := by
  unfold finalOrder at h
  rcases hs : sortFlag (pcmp t q) combFirst l with ⟨r0, fl⟩
  rw [hs] at h
  rcases fl with _ | p
  · dsimp only at h
    injection h with h1
    subst h1
    have hp := sortFlag_perm (pcmp t q) combFirst l
    rw [hs] at hp
    exact hp
  · dsimp only at h
    cases h

lemma teamName_card : Fintype.card TeamName = 13 := rfl

lemma rewriteRanks_placements (l0 : List TeamPlacement) (hlen : l0.length ≤ 255) :
    (rewriteRanks l0).map (fun tp => tp.placement)
      = (List.range l0.length).map (fun i => some (i + 1))
    ∧ (rewriteRanks l0).length = l0.length := by
  unfold rewriteRanks
  constructor
  · rw [List.map_map]
    have h1 : ((fun tp : TeamPlacement => tp.placement) ∘ (fun p : Nat × TeamPlacement =>
        { p.2 with placement := some ((1 + p.1 % 256) % 256) }))
        = (fun i : Nat => some ((1 + i % 256) % 256)) ∘ Prod.fst := rfl
    rw [h1, ← List.map_map, List.enum_map_fst]
    apply List.map_congr_left
    intro i hi
    have h2 : i < l0.length := List.mem_range.mp hi
    congr 1
    omega
  · simp

lemma winners_bracket_nodup (t : Tournament) (pl pl1 : TournamentPlacements)
    (h : winners_bracket t pl = .ok pl1) (hnd : (pl.map Prod.fst).Nodup) :
    (pl1.map Prod.fst).Nodup := by
  unfold winners_bracket at h
  (try dsimp only at h)
  split at h
  · cases h
  · obtain ⟨st, hfold, h⟩ := exceptBind_eq_ok _ _ _ h
    have hst := foldlM_preserve _
      (fun a : TournamentPlacements × Nat × Nat × Nat => (a.1.map Prod.fst).Nodup)
      (fun a x a2 hs hq => winnersFixtureStep_nodup t a x a2 hs hq)
      t.brackets.winners _ _ hfold hnd
    (try dsimp only at h)
    split at h
    · rcases hl : t.brackets.winners.getLast? with _ | last
      · rw [hl] at h
        (try dsimp only at h)
        cases h
      · rw [hl] at h
        (try dsimp only at h)
        obtain ⟨w, hw, h⟩ := exceptBind_eq_ok _ _ _ h
        (try dsimp only at h)
        obtain ⟨l, hlo, h⟩ := exceptBind_eq_ok _ _ _ h
        (try dsimp only at h)
        rcases w with _ | w1 <;> rcases l with _ | l1 <;> (try dsimp only at h) <;> cases h <;>
          (try (rw [set_placement_keys, set_placement_keys])) <;> exact hst
    · cases h
      exact hst

lemma losers_bracket_nodup (t : Tournament) (pl pl1 : TournamentPlacements)
    (h : losers_bracket t pl = .ok pl1) (hnd : (pl.map Prod.fst).Nodup) :
    (pl1.map Prod.fst).Nodup := by
  unfold losers_bracket at h
  rcases hlf : t.brackets.losers with _ | lfix
  · rw [hlf] at h
    (try dsimp only at h)
    rw [exceptBind_error_eval] at h
    cases h
  · rw [hlf] at h
    (try dsimp only at h)
    rw [exceptBind_ok_eval] at h
    (try dsimp only at h)
    split at h
    · cases h
    · obtain ⟨sim, hsim, h⟩ := exceptBind_eq_ok _ _ _ h
      rcases sim with ⟨cut, sl, x1, x2⟩
      (try dsimp only at h)
      obtain ⟨st, hfold, h⟩ := exceptBind_eq_ok _ _ _ h
      have hst := foldlM_preserve _
        (fun a : TournamentPlacements × Nat × Nat × Nat => (a.1.map Prod.fst).Nodup)
        (fun a x a2 hs hq => losersFixtureStep_nodup t cut a x a2 hs hq)
        lfix _ _ hfold hnd
      (try dsimp only at h)
      cases h
      exact hst

end BFC

namespace BFC

lemma grand_final_ok_fold (t : Tournament) (pl r : TournamentPlacements)
    (h : grand_final t pl = .ok r) :
    ∃ gfs, t.grand_final = some gfs
      ∧ gfs.foldlM (gfFixtureStep t.tournament_name) pl = .ok r := by
  unfold grand_final at h
  rcases hg : t.grand_final with _ | gfs
  · rw [hg] at h
    (try dsimp only at h)
    rw [exceptBind_error_eval] at h
    cases h
  · rw [hg] at h
    (try dsimp only at h)
    rw [exceptBind_ok_eval] at h
    (try dsimp only at h)
    refine ⟨gfs, rfl, ?_⟩
    by_cases hlen : gfs.length = 0 ∨ gfs.length > 2
    · rw [if_pos hlen] at h
      cases h
    · rw [if_neg hlen] at h
      rcases hh : gfs.head? with _ | f1
      · rw [hh] at h
        (try dsimp only at h)
        rw [exceptBind_error_eval] at h
        cases h
      · rw [hh] at h
        (try dsimp only at h)
        rw [exceptBind_ok_eval] at h
        (try dsimp only at h)
        rcases h2 : alGet f1.team1 pl with _ | tp1
        · rw [h2] at h
          (try dsimp only at h)
          rw [exceptBind_error_eval] at h
          cases h
        · rw [h2] at h
          (try dsimp only at h)
          rw [exceptBind_ok_eval] at h
          (try dsimp only at h)
          rcases h3 : alGet f1.team2 pl with _ | tp2
          · rw [h3] at h
            (try dsimp only at h)
            rw [exceptBind_error_eval] at h
            cases h
          · rw [h3] at h
            (try dsimp only at h)
            rw [exceptBind_ok_eval] at h
            (try dsimp only at h)
            rcases hfl : teamFromLosers tp1 tp2 with e | tfl
            · rw [hfl] at h
              rw [exceptBind_error_eval] at h
              cases h
            · rw [hfl] at h
              rw [exceptBind_ok_eval] at h
              (try dsimp only at h)
              rcases hfw : f1.winner with e | ow
              · rw [hfw] at h
                (try dsimp only at h)
                rw [exceptBind_error_eval] at h
                cases h
              · rw [hfw] at h
                rcases ow with _ | ffw
                · (try dsimp only at h)
                  rw [exceptBind_ok_eval] at h
                  exact h
                · (try dsimp only at h)
                  by_cases hc1 : gfs.length = 1 ∧ ffw = tfl
                  · rw [if_pos hc1] at h
                    rw [exceptBind_error_eval] at h
                    cases h
                  · rw [if_neg hc1] at h
                    by_cases hc2 : gfs.length = 2 ∧ ffw ≠ tfl
                    · rw [if_pos hc2] at h
                      rw [exceptBind_error_eval] at h
                      cases h
                    · rw [if_neg hc2] at h
                      rw [exceptBind_ok_eval] at h
                      exact h

lemma grand_final_nodup (t : Tournament) (pl r : TournamentPlacements)
    (h : grand_final t pl = .ok r) (hnd : (pl.map Prod.fst).Nodup) :
    (r.map Prod.fst).Nodup := by
  obtain ⟨gfs, hg, hfold⟩ := grand_final_ok_fold t pl r h
  exact foldlM_preserve _ (fun a : TournamentPlacements => (a.map Prod.fst).Nodup)
    (fun a x a2 hs hq => gfFixtureStep_nodup t.tournament_name a x a2 hs hq)
    gfs pl r hfold hnd

lemma groupQual_keys (name : String) (P : Nat) (pl0 : TournamentPlacements)
    (groups : List GroupID) (ts : List (TeamName × GroupTeam))
    (pl : TournamentPlacements) (qual : List GroupTeam)
    (h : groupQualification name P pl0 groups ts = .ok (pl, qual)) :
    pl.map Prod.fst = pl0.map Prod.fst := by
  unfold groupQualification at h
  (try dsimp only at h)
  split at h
  · cases h
  · obtain ⟨wq, hwq, h⟩ := exceptBind_eq_ok _ _ _ h
    (try dsimp only at h)
    obtain ⟨sc, hsc, h⟩ := exceptBind_eq_ok _ _ _ h
    (try dsimp only at h)
    obtain ⟨el, hel, h⟩ := exceptBind_eq_ok _ _ _ h
    (try dsimp only at h)
    injection h with h1
    injection h1 with hA hB
    subst hA
    unfold setEliminatedPlacements
    exact setEliminatedPlacements_keys _ _ _

lemma groupStage_run_nodup (t : Tournament) (gs : TournamentPlacements × List GroupTeam)
    (h : GroupStage.run t = .ok gs) : (gs.1.map Prod.fst).Nodup := by
  unfold GroupStage.run at h
  rcases hg : t.brackets.groups with _ | gfx
  · rw [hg] at h
    (try dsimp only at h)
    rw [exceptBind_error_eval] at h
    cases h
  · rw [hg] at h
    (try dsimp only at h)
    rw [exceptBind_ok_eval] at h
    (try dsimp only at h)
    obtain ⟨st, hfold, h⟩ := exceptBind_eq_ok _ _ _ h
    rcases st with ⟨pl0, groups, ts0⟩
    (try dsimp only at h)
    have hnd0 : (pl0.map Prod.fst).Nodup :=
      foldlM_preserve _
        (fun a : TournamentPlacements × List GroupID × List (TeamName × GroupTeam) =>
          (a.1.map Prod.fst).Nodup)
        (fun a x a2 hs hq => groupFixtureStep_nodup t.tournament_name a x a2 hs hq)
        gfx _ _ hfold (by simp)
    rcases gs with ⟨plG, qualG⟩
    rcases hh : t.head_to_head with _ | h2
    · rw [hh] at h
      (try dsimp only at h)
      rw [exceptBind_ok_eval] at h
      (try dsimp only at h)
      have hk := groupQual_keys _ _ _ _ _ _ _ h
      dsimp only
      rw [hk]
      exact hnd0
    · rw [hh] at h
      (try dsimp only at h)
      obtain ⟨ts1, hfill, h⟩ := exceptBind_eq_ok _ _ _ h
      (try dsimp only at h)
      have hk := groupQual_keys _ _ _ _ _ _ _ h
      dsimp only
      rw [hk]
      exact hnd0

end BFC

namespace BFC

lemma playoff_run_ranks (t : Tournament) (pl0 : TournamentPlacements)
    (q : Option (List GroupTeam)) (l : List TeamPlacement)
    (h : PlayoffStage.run t pl0 q = .ok l) (hnd : (pl0.map Prod.fst).Nodup) :
    l.map (fun tp => tp.placement) = (List.range l.length).map (fun i => some (i + 1)) := by
  unfold PlayoffStage.run at h
  obtain ⟨u1, hval1, h⟩ := exceptBind_eq_ok _ _ _ h
  (try dsimp only at h)
  obtain ⟨pl1, hwb, h⟩ := exceptBind_eq_ok _ _ _ h
  (try dsimp only at h)
  have hnd1 := winners_bracket_nodup t pl0 pl1 hwb hnd
  obtain ⟨pl2, hlg, h⟩ := exceptBind_eq_ok _ _ _ h
  (try dsimp only at h)
  have hnd2 : (pl2.map Prod.fst).Nodup := by
    unfold playoffLosersPhase at hlg
    split at hlg
    · obtain ⟨plA, hlb, hgf⟩ := exceptBind_eq_ok _ _ _ hlg
      exact grand_final_nodup _ _ _ hgf (losers_bracket_nodup _ _ _ hlb hnd1)
    · cases hlg
      exact hnd1
  obtain ⟨u2, hval2, h⟩ := exceptBind_eq_ok _ _ _ h
  (try dsimp only at h)
  obtain ⟨pl3, hfillm, h⟩ := exceptBind_eq_ok _ _ _ h
  (try dsimp only at h)
  have hnd3 : (pl3.map Prod.fst).Nodup := by
    unfold playoffFillH2H at hfillm
    rcases hh : t.head_to_head with _ | h2
    · rw [hh] at hfillm
      (try dsimp only at hfillm)
      cases hfillm
      exact hnd2
    · rw [hh] at hfillm
      (try dsimp only at hfillm)
      rw [fillH2HPlacements_keys h2 pl2 pl3 hfillm]
      exact hnd2
  obtain ⟨r, hord, h⟩ := exceptBind_eq_ok _ _ _ h
  (try dsimp only at h)
  injection h with h1
  subst h1
  have hperm := finalOrder_ok_perm t q (alValues pl3) r hord
  have hrlen : r.length ≤ 13 := by
    rw [hperm.length_eq]
    have hv : (alValues pl3).length = (pl3.map Prod.fst).length := by
      simp [alValues]
    rw [hv]
    have := hnd3.length_le_card
    rw [teamName_card] at this
    exact this
  obtain ⟨hmap, hlen⟩ := rewriteRanks_placements r (by omega)
  rw [hlen, hmap]

/-- Claim C1: whenever `Tournament::run` succeeds, the returned placements
carry the ranks `1, 2, ..., N` in order - the multiset of ranks is exactly
`{1, ..., N}` with no gaps and no duplicates - because after the final
ordering the ranks are rewritten densely from 1. -/
theorem tournament_run_dense_ranks (t : Tournament) (l : List TeamPlacement)
    (h : Tournament.run t = .ok l) :
    l.map (fun tp => tp.placement) = (List.range l.length).map (fun i => some (i + 1)) := by
  unfold Tournament.run at h
  rcases hg : t.brackets.groups with _ | gfx
  · rw [hg] at h
    (try dsimp only at h)
    exact playoff_run_ranks t [] none l h (by simp)
  · rw [hg] at h
    (try dsimp only at h)
    obtain ⟨gs, hgs, h⟩ := exceptBind_eq_ok _ _ _ h
    exact playoff_run_ranks t gs.1 (some gs.2) l h (groupStage_run_nodup t gs hgs)

set_option maxRecDepth 10000 in
theorem tournament_run_dense_ranks_witness :
    ([⟨⟨.Moai, 1, 2, 0, 0, 0, 1, 0, 0,
        some ⟨⟨.Moai, .Vidya, 2, 1, none, none, none⟩, "Duel"⟩, none,
        some [⟨.Vidya, 1, 2, 0, 0, 0, 1, 0, 0⟩], none, none⟩, some 1, none⟩,
      ⟨⟨.Vidya, 2, 1, 0, 0, 0, 0, 0, 1,
        none, some ⟨⟨.Moai, .Vidya, 2, 1, none, none, none⟩, "Duel"⟩,
        some [⟨.Moai, 2, 1, 0, 0, 0, 0, 0, 1⟩], none, none⟩, some 2, none⟩]
      : List TeamPlacement).map (fun tp => tp.placement)
      = (List.range
          ([⟨⟨.Moai, 1, 2, 0, 0, 0, 1, 0, 0,
              some ⟨⟨.Moai, .Vidya, 2, 1, none, none, none⟩, "Duel"⟩, none,
              some [⟨.Vidya, 1, 2, 0, 0, 0, 1, 0, 0⟩], none, none⟩, some 1, none⟩,
            ⟨⟨.Vidya, 2, 1, 0, 0, 0, 0, 0, 1,
              none, some ⟨⟨.Moai, .Vidya, 2, 1, none, none, none⟩, "Duel"⟩,
              some [⟨.Moai, 2, 1, 0, 0, 0, 0, 0, 1⟩], none, none⟩, some 2, none⟩]
            : List TeamPlacement).length).map (fun i => some (i + 1)) :=
  tournament_run_dense_ranks
    ⟨"Duel", 1, 5, false, 2, ⟨[⟨.Moai, .Vidya, 2, 1, none, none, none⟩], none, none⟩,
      none, none⟩
    [⟨⟨.Moai, 1, 2, 0, 0, 0, 1, 0, 0,
        some ⟨⟨.Moai, .Vidya, 2, 1, none, none, none⟩, "Duel"⟩, none,
        some [⟨.Vidya, 1, 2, 0, 0, 0, 1, 0, 0⟩], none, none⟩, some 1, none⟩,
      ⟨⟨.Vidya, 2, 1, 0, 0, 0, 0, 0, 1,
        none, some ⟨⟨.Moai, .Vidya, 2, 1, none, none, none⟩, "Duel"⟩,
        some [⟨.Moai, 2, 1, 0, 0, 0, 0, 0, 1⟩], none, none⟩, some 2, none⟩] (by rfl)

end BFC

namespace BFC

lemma optionBind_some_eval {X Y : Type} (x : X) (k : X → Option Y) :
    ((some x : Option X) >>= k) = k x := rfl

lemma insCmp_perm {α : Type} (f : α → α → Ordering) (x : α) :
    ∀ ys : List α, (insCmp f x ys).Perm (x :: ys)
  | [] => List.Perm.refl _
  | y :: ys => by
      unfold insCmp
      split
      · exact List.Perm.refl _
      · exact ((insCmp_perm f x ys).cons y).trans (List.Perm.swap x y ys)

lemma sortByCmp_perm_aux {α : Type} (f : α → α → Ordering) :
    ∀ (l acc : List α), (l.foldl (fun acc x => insCmp f x acc) acc).Perm (l ++ acc)
  | [], acc => by simp
  | x :: xs, acc => by
      rw [List.foldl_cons]
      refine (sortByCmp_perm_aux f xs (insCmp f x acc)).trans ?_
      refine (List.Perm.append_left xs (insCmp_perm f x acc)).trans ?_
      exact List.perm_middle

lemma sortByCmp_perm {α : Type} (f : α → α → Ordering) (l : List α) :
    (sortByCmp f l).Perm l := by
  have h := sortByCmp_perm_aux f l []
  simpa [sortByCmp] using h

lemma get_teams_ranked_shape :
    ∀ (tps : List TeamPlacement) (l : List RankedTeam),
      (tps.mapM (fun tp =>
        tp.placement.map (fun p =>
          ({ name := tp.team.name
             ranking_points := [POINTS.getD (pointsIndex p) 0]
             ranks := ([] : List Nat) } : RankedTeam))) = some l) →
      ∀ r ∈ l, r.ranking_points.length = 1 ∧ r.ranks = []
  | [], l => by
      intro h r hr
      rw [List.mapM_nil] at h
      cases h
      cases hr
  | tp :: tps, l => by
      intro h r hr
      rw [List.mapM_cons] at h
      obtain ⟨rt0, hrt0, h⟩ := optionBind_eq_some _ _ _ h
      obtain ⟨xs, hxs, h⟩ := optionBind_eq_some _ _ _ h
      cases h
      rcases List.mem_cons.mp hr with rfl | hr2
      · rcases hp : tp.placement with _ | p
        · rw [hp] at hrt0
          simp at hrt0
        · rw [hp] at hrt0
          rw [Option.map_some'] at hrt0
          cases hrt0
          exact ⟨rfl, rfl⟩
      · exact get_teams_ranked_shape tps xs hxs r hr2

end BFC

namespace BFC

lemma updateRankings_step (new_r : RankedTeam) (n : Nat) :
    ∀ (old out : List RankedTeam),
      updateRankings old new_r n = some out →
      ((old.map (fun rt => rt.name)).Nodup) →
      ((out.map (fun rt => rt.name) = old.map (fun rt => rt.name)
          ∧ new_r.name ∈ old.map (fun rt => rt.name))
        ∨ (new_r.name ∉ old.map (fun rt => rt.name)
          ∧ out.map (fun rt => rt.name) = old.map (fun rt => rt.name) ++ [new_r.name]))
      ∧ (∀ rt' ∈ out, rt'.name ≠ new_r.name → rt' ∈ old)
      ∧ (∀ rt ∈ old, rt.name ≠ new_r.name → rt ∈ out)
      ∧ (∀ rt' ∈ out, rt'.name = new_r.name →
          (∃ rt ∈ old, rt.name = new_r.name ∧ rt'.ranks = rt.ranks
            ∧ rt'.ranking_points.length = rt.ranking_points.length + 1)
          ∨ (rt'.ranking_points.length = n + new_r.ranking_points.length
              ∧ rt'.ranks.length = n + new_r.ranks.length))
  | [], out => by
      intro h hnd
      simp only [updateRankings] at h
      injection h with h1
      subst h1
      refine ⟨Or.inr ⟨by simp, by simp⟩, ?_, by simp, ?_⟩
      · intro rt' hm hne
        simp only [List.mem_singleton] at hm
        subst hm
        exact absurd rfl hne
      · intro rt' hm hname
        simp only [List.mem_singleton] at hm
        subst hm
        exact Or.inr ⟨by simp, by simp⟩
  | old0 :: rest, out => by
      intro h hnd
      simp only [updateRankings] at h
      have hnd0 : old0.name ∉ rest.map (fun rt => rt.name) :=
        (List.nodup_cons.mp (by simpa using hnd)).1
      have hndR : (rest.map (fun rt => rt.name)).Nodup :=
        (List.nodup_cons.mp (by simpa using hnd)).2
      by_cases heq : old0.name = new_r.name
      · rw [if_pos heq] at h
        obtain ⟨lastOld, hlo, h⟩ := optionBind_eq_some _ _ _ h
        obtain ⟨lastNew, hln, h⟩ := optionBind_eq_some _ _ _ h
        injection h with h1
        subst h1
        refine ⟨Or.inl ⟨by simp, by simp [heq]⟩, ?_, ?_, ?_⟩
        · intro rt' hm hne
          rcases List.mem_cons.mp hm with rfl | hm2
          · exact absurd heq hne
          · exact List.mem_cons_of_mem _ hm2
        · intro rt hm hne
          rcases List.mem_cons.mp hm with rfl | hm2
          · exact absurd heq hne
          · exact List.mem_cons_of_mem _ hm2
        · intro rt' hm hname
          rcases List.mem_cons.mp hm with rfl | hm2
          · refine Or.inl ⟨old0, List.mem_cons_self _ _, heq, rfl, by simp⟩
          · exfalso
            apply hnd0
            rw [← heq] at hname
            exact hname ▸ (List.mem_map.mpr ⟨rt', hm2, rfl⟩)
      · rw [if_neg heq] at h
        obtain ⟨r, hr, h⟩ := optionBind_eq_some _ _ _ h
        injection h with h1
        subst h1
        obtain ⟨hnames, hback, hfwd, htouch⟩ := updateRankings_step new_r n rest r hr hndR
        refine ⟨?_, ?_, ?_, ?_⟩
        · rcases hnames with ⟨he, hmem⟩ | ⟨hnm, he⟩
          · exact Or.inl ⟨by simp [he], by simp [hmem]⟩
          · refine Or.inr ⟨?_, by simp [he]⟩
            simp only [List.map_cons, List.mem_cons, not_or]
            exact ⟨fun hc => heq hc.symm, hnm⟩
        · intro rt' hm hne
          rcases List.mem_cons.mp hm with rfl | hm2
          · exact List.mem_cons_self _ _
          · exact List.mem_cons_of_mem _ (hback rt' hm2 hne)
        · intro rt hm hne
          rcases List.mem_cons.mp hm with rfl | hm2
          · exact List.mem_cons_self _ _
          · exact List.mem_cons_of_mem _ (hfwd rt hm2 hne)
        · intro rt' hm hname
          rcases List.mem_cons.mp hm with rfl | hm2
          · exact absurd hname heq
          · rcases htouch rt' hm2 hname with ⟨rt, hrtm, hrest⟩ | hnew
            · exact Or.inl ⟨rt, List.mem_cons_of_mem _ hrtm, hrest⟩
            · exact Or.inr hnew

end BFC

namespace BFC

lemma updateRankings_fold (n : Nat) :
    ∀ (nt : List RankedTeam) (cur out : List RankedTeam),
      nt.foldlM (fun acc new_r => updateRankings acc new_r n) cur = some out →
      ((cur.map (fun rt => rt.name)).Nodup) →
      ((nt.map (fun rt => rt.name)).Nodup) →
      (∀ r ∈ nt, r.ranking_points.length = 1 ∧ r.ranks = []) →
      (∀ r ∈ nt, ∀ rt ∈ cur, rt.name = r.name →
          rt.ranking_points.length = rt.ranks.length) →
      ((out.map (fun rt => rt.name)).Nodup)
      ∧ ∀ rt' ∈ out,
          (rt'.name ∈ nt.map (fun r => r.name) →
            rt'.ranking_points.length = rt'.ranks.length + 1)
          ∧ (rt'.name ∉ nt.map (fun r => r.name) → rt' ∈ cur)
  | [], cur, out => by
      intro h hndC hndN hshape hbal
      rw [List.foldlM_nil] at h
      cases h
      exact ⟨hndC, fun rt' hm => ⟨fun hin => absurd hin (by simp), fun _ => hm⟩⟩
  | new_r :: rest, cur, out => by
      intro h hndC hndN hshape hbal
      rw [List.foldlM_cons] at h
      obtain ⟨mid, hmid, hrest⟩ := optionBind_eq_some _ _ _ h
      obtain ⟨hnames, hback, hfwd, htouch⟩ := updateRankings_step new_r n cur mid hmid hndC
      have hndhead : new_r.name ∉ rest.map (fun r => r.name) :=
        (List.nodup_cons.mp (by simpa using hndN)).1
      have hndrest : (rest.map (fun r => r.name)).Nodup :=
        (List.nodup_cons.mp (by simpa using hndN)).2
      have hndM : (mid.map (fun rt => rt.name)).Nodup := by
        rcases hnames with ⟨he, _⟩ | ⟨hnm, he⟩
        · rw [he]
          exact hndC
        · rw [he, List.nodup_append]
          refine ⟨hndC, by simp, ?_⟩
          intro a ha hb
          simp only [List.mem_singleton] at hb
          subst hb
          exact hnm ha
      have hmidT : ∀ rt' ∈ mid, rt'.name = new_r.name →
          rt'.ranking_points.length = rt'.ranks.length + 1 := by
        intro rt' hm hn
        rcases htouch rt' hm hn with ⟨rt, hrtm, hrtn, hrk, hpl⟩ | ⟨hp, hr⟩
        · have hb := hbal new_r (by simp) rt hrtm hrtn
          rw [hpl, hrk, hb]
        · have hs := hshape new_r (by simp)
          rw [hp, hr, hs.1, hs.2]
          simp
      have hbal2 : ∀ r ∈ rest, ∀ rt ∈ mid, rt.name = r.name →
          rt.ranking_points.length = rt.ranks.length := by
        intro r hr rt hm hn
        have hne : rt.name ≠ new_r.name := by
          intro habs
          apply hndhead
          rw [← habs, hn]
          exact List.mem_map.mpr ⟨r, hr, rfl⟩
        exact hbal r (by simp [hr]) rt (hback rt hm hne) hn
      obtain ⟨hndO, hout⟩ := updateRankings_fold n rest mid out hrest hndM hndrest
        (fun r hr => hshape r (by simp [hr])) hbal2
      refine ⟨hndO, fun rt' hm => ⟨?_, ?_⟩⟩
      · intro hin
        simp only [List.map_cons, List.mem_cons] at hin
        rcases hin with hin1 | hin2
        · have hnin : rt'.name ∉ rest.map (fun r => r.name) := by
            rw [hin1]
            exact hndhead
          exact hmidT rt' ((hout rt' hm).2 hnin) hin1
        · exact (hout rt' hm).1 hin2
      · intro hnin
        simp only [List.map_cons, List.mem_cons, not_or] at hnin
        exact hback rt' ((hout rt' hm).2 hnin.2) hnin.1

end BFC

namespace BFC

theorem seasons_parallel_arrays_cex :
    (Seasons.fromResults
        [⟨"T1", 1, 1, [TeamPlacement.from (some 1) (Team.from .Moai),
                       TeamPlacement.from (some 2) (Team.from .Vidya)]⟩,
         ⟨"T2", 1, 2, [TeamPlacement.from (some 1) (Team.from .Moai)]⟩]).map
        (fun s => s.seasons.map (fun sr => sr.rankings.map (fun rt =>
          (rt.name, rt.ranking_points.length, rt.ranks.length))))
      = some [[(.Moai, 2, 2), (.Vidya, 1, 2)]] := by
  rfl

/-- Claim C4 (amended): a push into a season appends one entry to the ranks
list of every team of that season, but appends a ranking-points entry only for
teams present in the pushed result. For a push whose ranked teams carry
pairwise distinct names into a season whose rankings carry pairwise distinct
names and currently parallel arrays, a team of the resulting rankings has
`ranking_points` and `ranks` of equal length iff it appeared in the pushed
result; a team absent from the pushed result ends with its ranks list exactly
one entry longer than its ranking-points list, so the two lists are parallel
arrays only for teams appearing in every result of their season after they
join it. -/
theorem seasons_push_parallel
    (sr : SeasonRankings) (tr : TournamentResult) (sr' : SeasonRankings)
    (nt : List RankedTeam)
    (h : pushIntoSeason sr tr = some sr')
    (hnt : tr.get_teams_ranked = some nt)
    (hndS : (sr.rankings.map (fun rt => rt.name)).Nodup)
    (hndN : (nt.map (fun rt => rt.name)).Nodup)
    (hbal : ∀ rt ∈ sr.rankings, rt.ranking_points.length = rt.ranks.length) :
    ∀ rt2 ∈ sr'.rankings,
      (rt2.name ∈ nt.map (fun r => r.name) →
          rt2.ranking_points.length = rt2.ranks.length)
      ∧ (rt2.name ∉ nt.map (fun r => r.name) →
          rt2.ranks.length = rt2.ranking_points.length + 1) := by
  intro rt2 hm
  unfold pushIntoSeason at h
  (try dsimp only at h)
  rw [hnt] at h
  rw [optionBind_some_eval] at h
  (try dsimp only at h)
  obtain ⟨r1, hfold, h⟩ := optionBind_eq_some _ _ _ h
  (try dsimp only at h)
  injection h with h1
  subst h1
  have hsr1 : (if tr.tournament_name ∈ sr.tournaments then sr
      else { sr with tournaments := sr.tournaments ++ [tr.tournament_name] }).rankings
      = sr.rankings := by
    split <;> rfl
  rw [hsr1] at hfold
  obtain ⟨hndR1, hclass⟩ := updateRankings_fold _ nt sr.rankings r1 hfold hndS hndN
    (by
      intro r hr
      unfold TournamentResult.get_teams_ranked at hnt
      exact get_teams_ranked_shape tr.team_placements nt hnt r hr)
    (fun r _ rt hmc _ => hbal rt hmc)
  (try dsimp only at hm)
  obtain ⟨p, hpmem, hpe⟩ := List.mem_map.mp hm
  have hp2 : p.2 ∈ sortByCmp (fun a b =>
      optCmpNat b.ranking_points.getLast? a.ranking_points.getLast?) r1 := by
    rw [List.enum_eq_zip_range] at hpmem
    exact (List.of_mem_zip hpmem).2
  have hp2m : p.2 ∈ r1 := (sortByCmp_perm _ r1).mem_iff.mp hp2
  have hcl := hclass p.2 hp2m
  subst hpe
  constructor
  · intro hin
    have h1 := hcl.1 hin
    (try dsimp only)
    simp only [List.length_append, List.length_singleton]
    omega
  · intro hnin
    have h2 := hcl.2 hnin
    have hb := hbal p.2 h2
    (try dsimp only)
    simp only [List.length_append, List.length_singleton]
    omega

theorem seasons_push_parallel_witness :
    (((⟨.Moai, [0, 1500], [0, 1]⟩ : RankedTeam).name
        ∈ [(⟨.Moai, [1500], []⟩ : RankedTeam)].map (fun r => r.name) →
      (⟨.Moai, [0, 1500], [0, 1]⟩ : RankedTeam).ranking_points.length
        = (⟨.Moai, [0, 1500], [0, 1]⟩ : RankedTeam).ranks.length)
     ∧ ((⟨.Moai, [0, 1500], [0, 1]⟩ : RankedTeam).name
          ∉ [(⟨.Moai, [1500], []⟩ : RankedTeam)].map (fun r => r.name) →
        (⟨.Moai, [0, 1500], [0, 1]⟩ : RankedTeam).ranks.length
          = (⟨.Moai, [0, 1500], [0, 1]⟩ : RankedTeam).ranking_points.length + 1))
    ∧ (((⟨.Vidya, [10], [2, 2]⟩ : RankedTeam).name
        ∈ [(⟨.Moai, [1500], []⟩ : RankedTeam)].map (fun r => r.name) →
      (⟨.Vidya, [10], [2, 2]⟩ : RankedTeam).ranking_points.length
        = (⟨.Vidya, [10], [2, 2]⟩ : RankedTeam).ranks.length)
     ∧ ((⟨.Vidya, [10], [2, 2]⟩ : RankedTeam).name
          ∉ [(⟨.Moai, [1500], []⟩ : RankedTeam)].map (fun r => r.name) →
        (⟨.Vidya, [10], [2, 2]⟩ : RankedTeam).ranks.length
          = (⟨.Vidya, [10], [2, 2]⟩ : RankedTeam).ranking_points.length + 1)) :=
  ⟨seasons_push_parallel ⟨1, 1, [⟨.Vidya, [10], [2]⟩], ["T0"]⟩
      ⟨"T2", 1, 2, [TeamPlacement.from (some 1) (Team.from .Moai)]⟩
      ⟨1, 1, [⟨.Moai, [0, 1500], [0, 1]⟩, ⟨.Vidya, [10], [2, 2]⟩], ["T0", "T2"]⟩
      [⟨.Moai, [1500], []⟩] rfl rfl (by decide) (by decide) (by decide)
      ⟨.Moai, [0, 1500], [0, 1]⟩ (by decide),
   seasons_push_parallel ⟨1, 1, [⟨.Vidya, [10], [2]⟩], ["T0"]⟩
      ⟨"T2", 1, 2, [TeamPlacement.from (some 1) (Team.from .Moai)]⟩
      ⟨1, 1, [⟨.Moai, [0, 1500], [0, 1]⟩, ⟨.Vidya, [10], [2, 2]⟩], ["T0", "T2"]⟩
      [⟨.Moai, [1500], []⟩] rfl rfl (by decide) (by decide) (by decide)
      ⟨.Vidya, [10], [2, 2]⟩ (by decide)⟩

end BFC
